import Mathlib

/-
  Verification development for the vaccine survey preprocessing pipeline.

  The repository has two preprocessing variants:
    * `pipeline.py`            : function `preprocess` (module-level pipeline)
    * `pipeline/preprocessing.py` : class `DataPreprocessor` (method chain)

  A data table (pandas DataFrame) is modelled as an ordered association list
  of named columns; a cell is a rational number, a string, or missing (NaN).
  Categorical values handled by one-hot / mode imputation are modelled as
  strings, matching the survey data these pipelines consume.  Python
  exceptions (pandas KeyError, ValueError, AttributeError, TypeError) are
  modelled with an explicit error type and `Except`.
-/

set_option autoImplicit false

namespace Vaccine

/- exact rational numbers with kernel-computable arithmetic; every value
   built by the operations below is kept in lowest terms, so structural
   equality coincides with equality of rationals -/
structure Frac where
  num : Int
  den : Nat
deriving DecidableEq

def fracNorm (n : Int) (d : Nat) : Frac :=
  let g := Nat.gcd n.natAbs d
  if g = 0 then ⟨0, 1⟩ else ⟨n / (g : Int), d / g⟩

instance (n : Nat) : OfNat Frac n := ⟨⟨Int.ofNat n, 1⟩⟩

instance : Neg Frac := ⟨fun a => ⟨-a.num, a.den⟩⟩

instance : Add Frac :=
  ⟨fun a b => fracNorm (a.num * (b.den : Int) + b.num * (a.den : Int)) (a.den * b.den)⟩

instance : Div Frac :=
  ⟨fun a b =>
    fracNorm (a.num * (b.den : Int) * (if b.num < 0 then -1 else 1))
      (a.den * b.num.natAbs)⟩

instance : LE Frac := ⟨fun a b => a.num * (b.den : Int) ≤ b.num * (a.den : Int)⟩

instance : LT Frac := ⟨fun a b => a.num * (b.den : Int) < b.num * (a.den : Int)⟩

instance (a b : Frac) : Decidable (a ≤ b) :=
  inferInstanceAs (Decidable (a.num * (b.den : Int) ≤ b.num * (a.den : Int)))

instance (a b : Frac) : Decidable (a < b) :=
  inferInstanceAs (Decidable (a.num * (b.den : Int) < b.num * (a.den : Int)))

inductive Value where
  | vnum (q : Frac)
  | vstr (s : String)
  | vmiss
deriving DecidableEq

abbrev Column := String × List Value

abbrev Table := List Column

instance {ε α : Type} [DecidableEq ε] [DecidableEq α] : DecidableEq (Except ε α)
  | .error e, .error f =>
    if h : e = f then .isTrue (by rw [h])
    else .isFalse (fun hh => h (Except.error.inj hh))
  | .error _, .ok _ => .isFalse (fun hh => Except.noConfusion hh)
  | .ok _, .error _ => .isFalse (fun hh => Except.noConfusion hh)
  | .ok a, .ok b =>
    if h : a = b then .isTrue (by rw [h])
    else .isFalse (fun hh => h (Except.ok.inj hh))

inductive Err where
  | keyError (cols : List String)
  | valueError (msg : List String)
  | attributeError (attr : String)
  | typeError
deriving DecidableEq

/- ---------- basic table operations (pandas primitives) ---------- -/

def getCol : Table → String → Option (List Value)
  | [], _ => none
  | c :: t, n => if c.1 = n then some c.2 else getCol t n

def hasCol (t : Table) (n : String) : Bool := (getCol t n).isSome

def dropCols (ns : List String) (t : Table) : Table :=
  t.filter (fun c => !(ns.contains c.1))

def replaceCol : Table → String → List Value → Table
  | [], _, _ => []
  | c :: t, n, vs => (if c.1 = n then (n, vs) else c) :: replaceCol t n vs

-- pandas `df[n] = vs`: overwrite the column if present, else append it.
def setCol (t : Table) (n : String) (vs : List Value) : Table :=
  if hasCol t n then replaceCol t n vs else t ++ [(n, vs)]

-- number of rows, as the length of the first column (tables are rectangular)
def nrows (t : Table) : Nat := ((t.head?).map (fun c => c.2.length)).getD 0

/- ---------- cell-level helpers ---------- -/

def isNumOrMiss : Value → Bool
  | .vstr _ => false
  | _ => true

-- a column pandas counts as float64/int64: no string cell
def numericCol (vs : List Value) : Bool := vs.all isNumOrMiss

def presentNums (vs : List Value) : List Frac :=
  vs.filterMap (fun v => match v with | .vnum q => some q | _ => none)

def insertNum (q : Frac) : List Frac → List Frac
  | [] => [q]
  | x :: xs => if q ≤ x then q :: x :: xs else x :: insertNum q xs

def sortNums (l : List Frac) : List Frac := l.foldr insertNum []

def medianOfSorted (ps : List Frac) : Option Frac :=
  if ps.length = 0 then none
  else if ps.length % 2 = 1 then some (ps.getD (ps.length / 2) 0)
  else some ((ps.getD (ps.length / 2 - 1) 0 + ps.getD (ps.length / 2) 0) / 2)

-- pandas `Series.median()` (skipna; average of the two middle values)
def batchMedian (vs : List Value) : Option Frac :=
  medianOfSorted (sortNums (presentNums vs))

def fillWith (vs : List Value) (m : Option Frac) : List Value :=
  match m with
  | none => vs
  | some q => vs.map (fun v => if v = .vmiss then .vnum q else v)

-- `col.fillna(col.median())`
def fillMedian (vs : List Value) : List Value := fillWith vs (batchMedian vs)

-- `fillna(0)`
def fill0 (v : Value) : Value := if v = .vmiss then .vnum 0 else v

-- elementwise `+` of two aligned pandas Series
def addV : Value → Value → Except Err Value
  | .vnum a, .vnum b => .ok (.vnum (a + b))
  | .vstr a, .vstr b => .ok (.vstr (a ++ b))
  | .vmiss, .vnum _ => .ok .vmiss
  | .vnum _, .vmiss => .ok .vmiss
  | .vmiss, .vmiss => .ok .vmiss
  | _, _ => .error .typeError

def addCols : List Value → List Value → Except Err (List Value)
  | [], [] => .ok []
  | x :: xs, y :: ys => do
    let v ← addV x y
    let rest ← addCols xs ys
    .ok (v :: rest)
  | _, _ => .error .typeError

-- `df[cols].sum(axis=1)` on one row: NaN skipped, all-NaN row sums to 0
def sumRow : List Value → Except Err Frac
  | [] => .ok 0
  | .vnum a :: rest => do
    let r ← sumRow rest
    .ok (a + r)
  | .vmiss :: rest => sumRow rest
  | .vstr _ :: _ => .error .typeError

def rowAt (cols : List (List Value)) (i : Nat) : List Value :=
  cols.map (fun c => c.getD i .vmiss)

def sumAxis1 (cols : List (List Value)) (n : Nat) : Except Err (List Value) :=
  (List.range n).mapM (fun i => (sumRow (rowAt cols i)).map Value.vnum)

/- ---------- one-hot encoding (pd.get_dummies, drop_first=True) ---------- -/

/- code-point lexicographic comparison of strings (python's `<` on str),
   written over the character lists so that it evaluates in the kernel -/
def charListLt : List Char → List Char → Bool
  | [], [] => false
  | [], _ :: _ => true
  | _ :: _, [] => false
  | a :: as, b :: bs => decide (a < b) || (a = b && charListLt as bs)

def strLt (s t : String) : Bool := charListLt s.data t.data

def insertStr (s : String) : List String → List String
  | [] => [s]
  | x :: xs =>
    if strLt s x then s :: x :: xs
    else if s = x then x :: xs
    else x :: insertStr s xs

-- the sorted distinct non-missing category values of a column
def sortedCats (vs : List Value) : List String :=
  vs.foldl (fun acc v => match v with | .vstr s => insertStr s acc | _ => acc) []

def strOrMiss : Value → Bool
  | .vnum _ => false
  | _ => true

-- indicator columns for each category except the first (drop_first=True),
-- named `{col}_{category}`; a missing cell gets 0 in every indicator
def dummyCols (col : String) (vs : List Value) : List Column :=
  ((sortedCats vs).drop 1).map
    (fun c => (col ++ "_" ++ c,
      vs.map (fun v => if v = .vstr c then Value.vnum 1 else Value.vnum 0)))

def allNumB (vs : List Value) : Bool :=
  vs.all (fun v => match v with | .vnum _ => true | _ => false)

def numOr0 : Value → Frac
  | .vnum q => q
  | _ => 0

/- the generic column-tracking property through a stage: an existing column
   is preserved verbatim; a fresh column can only appear as an all-numeric
   indicator column -/
def TrackP (t t' : Table) (c : String) : Prop :=
  (∀ vs, getCol t c = some vs → getCol t' c = some vs) ∧
  (getCol t c = none →
    (getCol t' c = none ∨ ∃ ds, getCol t' c = some ds ∧ allNumB ds = true))

def removeCol (t : Table) (n : String) : Table := t.filter (fun c => c.1 != n)

-- get_dummies on one column: the source column is removed and the
-- indicator columns are appended at the end of the table
def oneHotCol (t : Table) (col : String) : Except Err Table :=
  match getCol t col with
  | none => .error (.keyError [col])
  | some vs =>
    if vs.all strOrMiss then .ok (removeCol t col ++ dummyCols col vs)
    else .error .typeError

end Vaccine

/- ---------- pipeline.py : preprocess ---------- -/

namespace Vaccine.Pipeline

def EXPECTED_COLS : List String := [
  "h1n1_concern", "h1n1_knowledge", "behavioral_antiviral_meds",
  "chronic_med_condition", "child_under_6_months", "health_worker",
  "health_insurance", "opinion_h1n1_vacc_effective", "opinion_h1n1_risk",
  "opinion_h1n1_sick_from_vacc", "opinion_seas_vacc_effective",
  "opinion_seas_risk", "opinion_seas_sick_from_vacc", "age_group",
  "education", "income_poverty", "household_size", "doctor_recc_both",
  "safe_behavior_score", "race_Hispanic", "race_Other or Multiple",
  "race_White", "sex_Male", "marital_status_Not Married",
  "rent_or_own_Rent", "employment_status_Not in Labor Force",
  "employment_status_Unemployed"]

def idTargetCols : List String := ["respondent_id", "h1n1_vaccine", "seasonal_vaccine"]

def highMissingCols : List String :=
  ["employment_industry", "employment_occupation", "hhs_geo_region", "census_msa"]

def stage_drop (t : Table) : Table := dropCols highMissingCols (dropCols idTargetCols t)

-- df["health_insurance"].fillna("NA").map({1.0: 1, 0.0: 0}).fillna(-1)
def encodeHI (v : Value) : Value :=
  if v = .vnum 1 then .vnum 1 else if v = .vnum 0 then .vnum 0 else .vnum (-1)

def stage_hi (t : Table) : Except Err Table :=
  match getCol t "health_insurance" with
  | none => .error (.keyError ["health_insurance"])
  | some vs => .ok (setCol t "health_insurance" (vs.map encodeHI))

def edu_order : List (String × Frac) :=
  [("< 12 Years", 0), ("12 Years", 1), ("Some College", 2), ("College Graduate", 3)]

def inc_order : List (String × Frac) :=
  [("Below Poverty", 0), ("<= $75,000, Above Poverty", 1), ("> $75,000", 2)]

def age_order : List (String × Frac) :=
  [("18 - 34 Years", 0), ("35 - 44 Years", 1), ("45 - 54 Years", 2),
   ("55 - 64 Years", 3), ("65+ Years", 4)]

-- Series.map(dict): a key hit maps to its integer, anything else becomes NaN
def applyOrdMap (m : List (String × Frac)) : Value → Value
  | .vstr s => match m.lookup s with | some q => .vnum q | none => .vmiss
  | _ => .vmiss

def ordPairs : List (String × List (String × Frac)) :=
  [("education", edu_order), ("income_poverty", inc_order), ("age_group", age_order)]

def mapIfPresent (t : Table) (p : String × List (String × Frac)) : Table :=
  match getCol t p.1 with
  | none => t
  | some vs => setCol t p.1 (vs.map (applyOrdMap p.2))

def stage_ord (t : Table) : Table := ordPairs.foldl mapIfPresent t

def needCol (t : Table) (n : String) : Except Err (List Value) :=
  match getCol t n with
  | some vs => .ok vs
  | none => .error (.keyError [n])

-- df["household_size"] = df["household_adults"].fillna(0) + df["household_children"].fillna(0)
def stage_household (t : Table) : Except Err Table := do
  let a ← needCol t "household_adults"
  let c ← needCol t "household_children"
  let hs ← addCols (a.map fill0) (c.map fill0)
  .ok (setCol t "household_size" hs)

def safe_behaviors : List String :=
  ["behavioral_avoidance", "behavioral_face_mask", "behavioral_wash_hands",
   "behavioral_large_gatherings", "behavioral_outside_home", "behavioral_touch_face"]

-- df[list] raises a KeyError naming every missing label at once
def selectCols (t : Table) (ns : List String) : Except Err (List (List Value)) :=
  let missing := ns.filter (fun n => !(hasCol t n))
  if missing.isEmpty then .ok (ns.map (fun n => (getCol t n).getD []))
  else .error (.keyError missing)

def stage_sbs (t : Table) : Except Err Table := do
  let cols ← selectCols t safe_behaviors
  let sbs ← sumAxis1 cols (nrows t)
  .ok (setCol t "safe_behavior_score" sbs)

def stage_dr (t : Table) : Except Err Table := do
  let a ← needCol t "doctor_recc_h1n1"
  let b ← needCol t "doctor_recc_seasonal"
  let db ← addCols (a.map fill0) (b.map fill0)
  .ok (dropCols ["doctor_recc_h1n1", "doctor_recc_seasonal"]
        (setCol t "doctor_recc_both" db))

def cats : List String := ["race", "sex", "marital_status", "rent_or_own", "employment_status"]

def stage_onehot (t : Table) : Except Err Table :=
  let missing := cats.filter (fun n => !(hasCol t n))
  if missing.isEmpty then cats.foldlM oneHotCol t else .error (.keyError missing)

-- numeric impute: every float64/int64 column gets fillna(median);
-- boolean dummy columns have no missing cell, so including them is a no-op
def stage_impute (t : Table) : Table :=
  t.map (fun c => if numericCol c.2 then (c.1, fillMedian c.2) else c)

-- for col in EXPECTED_COLS: if absent, add as constant 0; then df = df[EXPECTED_COLS]
def stage_reconcile (t : Table) : Table :=
  EXPECTED_COLS.map
    (fun c => (c, (getCol t c).getD (List.replicate (nrows t) (Value.vnum 0))))

def preprocess (t : Table) : Except Err Table := do
  let t1 := stage_drop t
  let t2 ← stage_hi t1
  let t3 := stage_ord t2
  let t4 ← stage_household t3
  let t5 ← stage_sbs t4
  let t6 ← stage_dr t5
  let t7 ← stage_onehot t6
  .ok (stage_reconcile (stage_impute t7))

/- ---------- validity conditions used to state the schema theorem ---------- -/

def ordCols : List String := ["education", "income_poverty", "age_group"]

def engineeredCols : List String :=
  ["household_size", "safe_behavior_score", "doctor_recc_both"]

def drCols : List String := ["doctor_recc_h1n1", "doctor_recc_seasonal"]

-- columns with dedicated handling; every other column of a valid batch is
-- expected to be a plain numeric survey column
def specialCols : List String :=
  idTargetCols ++ highMissingCols ++ ["health_insurance"] ++ ordCols ++ drCols ++ cats

-- source columns that feed the engineered features and must be numeric
def srcNumCols : List String :=
  ["household_adults", "household_children",
   "doctor_recc_h1n1", "doctor_recc_seasonal"] ++ safe_behaviors

def colSatB (t : Table) (n : String) (p : List Value → Bool) : Bool :=
  match getCol t n with
  | some vs => p vs
  | none => false

def rectB (t : Table) : Bool := t.all (fun c => c.2.length == nrows t)

/- a valid input batch: rectangular; the synthesis source columns present and
   numeric; health_insurance present; the five nominal columns present with
   string/missing cells; every non-special column numeric with at least one
   present value; each ordinal column present has at least one mappable label -/
def ValidBatch (t : Table) : Prop :=
  rectB t = true ∧
  srcNumCols.all (fun n => colSatB t n numericCol) = true ∧
  hasCol t "health_insurance" = true ∧
  cats.all (fun n => colSatB t n (fun vs => vs.all strOrMiss)) = true ∧
  t.all (fun p => specialCols.contains p.1 ||
    (numericCol p.2 && !(presentNums p.2).isEmpty)) = true ∧
  ordPairs.all (fun p => (getCol t p.1).elim true
    (fun vs => !(presentNums (vs.map (applyOrdMap p.2))).isEmpty)) = true

instance (t : Table) : Decidable (ValidBatch t) := by
  unfold ValidBatch
  infer_instance

/- a pre-imputation column is `good` when the median-imputation stage is
   guaranteed to leave it all-numeric (or it is absent and later zero-filled) -/
def goodPreImpute (t7 : Table) (n : String) : Prop :=
  getCol t7 n = none ∨ ∃ vs, getCol t7 n = some vs ∧
    ((numericCol vs = true ∧ presentNums vs ≠ []) ∨ allNumB vs = true)

end Vaccine.Pipeline

/- ---------- pipeline/preprocessing.py : class DataPreprocessor ---------- -/

namespace Vaccine.DataPreprocessor

def required_columns : List String :=
  ["respondent_id", "h1n1_concern", "behavioral_antiviral_meds",
   "household_adults", "household_children", "doctor_recc_h1n1",
   "doctor_recc_seasonal", "opinion_h1n1_risk"]

-- validate_data: raise ValueError listing every missing required column
def validate_data (req : List String) (t : Table) : Except Err Table :=
  let missing := req.filter (fun n => !(hasCol t n))
  if missing.isEmpty then .ok t else .error (.valueError missing)

def drop_unused_columns (t : Table) : Table :=
  dropCols ["employment_industry", "employment_occupation",
            "hhs_geo_region", "census_msa"] t

-- Series.mode()[0]: most frequent non-missing value; ties resolved by the
-- smallest value (pandas mode returns its candidates sorted)
def valLT : Value → Value → Bool
  | .vnum a, .vnum b => decide (a < b)
  | .vnum _, .vstr _ => true
  | .vstr a, .vstr b => strLt a b
  | _, _ => false

def nonMissing (vs : List Value) : List Value := vs.filter (fun v => v ≠ .vmiss)

def colMode (vs : List Value) : Option Value :=
  (nonMissing vs).foldl
    (fun acc v =>
      match acc with
      | none => some v
      | some b =>
        if vs.count v > vs.count b then some v
        else if vs.count v = vs.count b ∧ valLT v b then some v
        else some b)
    none

-- handle_missing_values: numeric columns get fillna(median), object columns
-- get fillna(mode()[0]); mode()[0] of an all-missing object column raises
def handle_missing_values (t : Table) : Except Err Table :=
  t.mapM (fun c =>
    if numericCol c.2 then .ok (c.1, fillMedian c.2)
    else if c.2.any (fun v => v = .vmiss) then
      match colMode c.2 with
      | some m => .ok (c.1, c.2.map (fun v => if v = .vmiss then m else v))
      | none => .error (.keyError ["0"])
    else .ok c)

-- engineer_features, first part: household_size = adults + children
-- (guarded by presence; note: no fillna(0) in this variant)
def engineerHousehold (t : Table) : Except Err Table :=
  match getCol t "household_adults", getCol t "household_children" with
  | some a, some c => do
    let hs ← addCols a c
    .ok (setCol t "household_size" hs)
  | _, _ => .ok t

def engineerDoctor (t : Table) : Except Err Table :=
  match getCol t "doctor_recc_h1n1", getCol t "doctor_recc_seasonal" with
  | some a, some b => do
    let d ← addCols a b
    .ok (setCol t "doctor_recc_both" d)
  | _, _ => .ok t

def subList (needle : List Char) : List Char → Bool
  | [] => needle.isEmpty
  | c :: tl => needle.isPrefixOf (c :: tl) || subList needle tl

-- python `'behavioral_' in col` (substring test)
def containsSub (hay needle : String) : Bool := subList needle.data hay.data

-- behavior_cols = [col for col in columns if 'behavioral_' in col]
def engineerBehavior (t : Table) : Except Err Table :=
  let bcols := (t.map (fun c => c.1)).filter (fun n => containsSub n "behavioral_")
  if bcols.isEmpty then .ok t
  else do
    let cols := bcols.map (fun n => (getCol t n).getD [])
    let sbs ← sumAxis1 cols (nrows t)
    .ok (setCol t "safe_behavior_score" sbs)

def engineer_features (t : Table) : Except Err Table := do
  let t ← engineerHousehold t
  let t ← engineerDoctor t
  engineerBehavior t

-- one-hot via pd.get_dummies(self.data[col], prefix=col, drop_first=True),
-- concatenated at the end and the source column dropped; guarded by presence
def dpOneHot (t : Table) (col : String) : Except Err Table :=
  if hasCol t col then oneHotCol t col else .ok t

-- encode_categoricals: ordinal maps for education and income_poverty only
-- (age_group is NOT ordinally encoded in this variant), then one-hot for
-- race, sex, marital_status, rent_or_own (employment_status NOT encoded)
def encode_categoricals (t : Table) : Except Err Table := do
  let t := match getCol t "education" with
    | some vs => setCol t "education" (vs.map (Pipeline.applyOrdMap Pipeline.edu_order))
    | none => t
  let t := match getCol t "income_poverty" with
    | some vs => setCol t "income_poverty" (vs.map (Pipeline.applyOrdMap Pipeline.inc_order))
    | none => t
  let t ← dpOneHot t "race"
  let t ← dpOneHot t "sex"
  let t ← dpOneHot t "marital_status"
  dpOneHot t "rent_or_own"

-- split_features_labels: its first statement reads self.is_training_data,
-- an attribute that no code path ever assigns, so it always raises
def split_features_labels (_t : Table) : Except Err Table :=
  .error (.attributeError "is_training_data")

-- the data-transforming stages of preprocess(), before split_features_labels
def stages (t : Table) : Except Err Table := do
  let t ← validate_data required_columns t
  let t := drop_unused_columns t
  let t ← handle_missing_values t
  let t ← engineer_features t
  encode_categoricals t

def preprocess (t : Table) : Except Err Table := do
  let t ← stages t
  split_features_labels t

end Vaccine.DataPreprocessor

/- ---------- concrete example batches ---------- -/

namespace Vaccine.Examples

open Value

-- a well-formed three-row survey batch accepted by both pipeline variants
def CB : Table := [
  ("respondent_id", [vnum 1, vnum 2, vnum 3]),
  ("h1n1_concern", [vnum 1, vnum 2, vmiss]),
  ("health_insurance", [vnum 1, vmiss, vnum 0]),
  ("age_group", [vstr "18 - 34 Years", vmiss, vstr "45 - 54 Years"]),
  ("education", [vstr "12 Years", vstr "College Graduate", vstr "12 Years"]),
  ("income_poverty", [vstr "Below Poverty", vstr "> $75,000", vstr "Below Poverty"]),
  ("household_adults", [vnum 2, vmiss, vnum 1]),
  ("household_children", [vnum 1, vnum 0, vnum 2]),
  ("behavioral_antiviral_meds", [vnum 0, vnum 1, vnum 0]),
  ("behavioral_avoidance", [vnum 1, vnum 1, vmiss]),
  ("behavioral_face_mask", [vnum 0, vnum 1, vnum 0]),
  ("behavioral_wash_hands", [vnum 1, vnum 1, vnum 1]),
  ("behavioral_large_gatherings", [vnum 0, vnum 0, vnum 1]),
  ("behavioral_outside_home", [vnum 1, vnum 0, vnum 0]),
  ("behavioral_touch_face", [vnum 1, vnum 1, vnum 0]),
  ("doctor_recc_h1n1", [vnum 1, vnum 0, vmiss]),
  ("doctor_recc_seasonal", [vnum 1, vmiss, vnum 0]),
  ("opinion_h1n1_risk", [vnum 3, vnum 4, vnum 1]),
  ("race", [vstr "White", vstr "Hispanic", vstr "White"]),
  ("sex", [vstr "Male", vstr "Female", vstr "Female"]),
  ("marital_status", [vstr "Married", vstr "Not Married", vstr "Married"]),
  ("rent_or_own", [vstr "Own", vstr "Rent", vstr "Own"]),
  ("employment_status", [vstr "Employed", vstr "Unemployed", vstr "Not in Labor Force"]),
  ("employment_industry", [vstr "x", vstr "y", vstr "z"])]

-- CB with the third age-group answer changed, so that the encoded ages are
-- [0, missing, 4] instead of [0, missing, 2] (different batch median)
def CB2 : Table :=
  CB.map (fun c =>
    if c.1 = "age_group"
    then ("age_group", [vstr "18 - 34 Years", vmiss, vstr "65+ Years"])
    else c)

-- CB with h1n1_concern entirely missing: the batch median is undefined
def CBmiss : Table :=
  CB.map (fun c =>
    if c.1 = "h1n1_concern" then ("h1n1_concern", [vmiss, vmiss, vmiss]) else c)

-- a batch with health_insurance present but household_adults absent
def Bhh : Table := [("health_insurance", [vnum 1])]

end Vaccine.Examples

/- ---------- basic lemmas about the table model ---------- -/

namespace Vaccine

theorem getCol_append (t1 t2 : Table) (c : String) :
    getCol (t1 ++ t2) c = ((getCol t1 c).elim (getCol t2 c) some) := by
  induction t1 with
  | nil => simp [getCol]
  | cons a t ih =>
    by_cases h : a.1 = c <;> simp [getCol, h, ih]

theorem getCol_replaceCol (t : Table) (n : String) (vs : List Value) (c : String) :
    getCol (replaceCol t n vs) c =
      if c = n then (if hasCol t n then some vs else none) else getCol t c := by
  induction t with
  | nil => simp [replaceCol, getCol, hasCol]
  | cons a t ih =>
    show getCol ((if a.1 = n then (n, vs) else a) :: replaceCol t n vs) c = _
    by_cases han : a.1 = n
    · rw [if_pos han]
      by_cases hcn : c = n
      · subst hcn
        simp [getCol, hasCol, han]
      · have h1 : ¬ (n = c) := fun h => hcn h.symm
        have h2 : ¬ (a.1 = c) := fun h => h1 (han ▸ h)
        simp [getCol, h1, h2, ih, hcn]
    · rw [if_neg han]
      by_cases hac : a.1 = c
      · have hcn : ¬ c = n := fun h => han (by rw [hac, h])
        simp [getCol, hac, hcn]
      · have hstep : getCol (a :: replaceCol t n vs) c = getCol (replaceCol t n vs) c := by
          simp [getCol, hac]
        rw [hstep, ih]
        by_cases hcn : c = n
        · subst hcn
          have hh : hasCol (a :: t) c = hasCol t c := by simp [hasCol, getCol, han]
          simp [hh]
        · simp [getCol, hac, hcn]

theorem getCol_setCol (t : Table) (n : String) (vs : List Value) (c : String) :
    getCol (setCol t n vs) c = if c = n then some vs else getCol t c := by
  unfold setCol
  by_cases h : hasCol t n
  · simp [h, getCol_replaceCol]
  · rw [if_neg h, getCol_append]
    have hnone : getCol t n = none := by
      unfold hasCol at h
      cases hg : getCol t n <;> simp [hg] at h ⊢
    by_cases hcn : c = n
    · subst hcn
      simp [hnone, getCol]
    · have h1 : ¬ (n = c) := fun h => hcn h.symm
      cases hg : getCol t c <;> simp [hg, getCol, h1, hcn]

theorem getCol_dropCols (ns : List String) (t : Table) (c : String) :
    getCol (dropCols ns t) c = if ns.contains c then none else getCol t c := by
  induction t with
  | nil => simp [dropCols, getCol]
  | cons a t ih =>
    unfold dropCols at ih ⊢
    rw [List.filter_cons]
    by_cases hmem : a.1 ∈ ns
    · have hp : (!(ns.contains a.1)) = false := by simp [hmem]
      rw [hp, if_neg (by simp)]
      by_cases hac : a.1 = c
      · subst hac
        rw [ih]
        simp [hmem]
      · rw [ih]
        simp [getCol, hac]
    · have hp : (!(ns.contains a.1)) = true := by simp [hmem]
      rw [hp, if_pos rfl]
      by_cases hac : a.1 = c
      · subst hac
        simp [getCol, hmem]
      · simp only [getCol, if_neg hac]
        exact ih

theorem getCol_removeCol (t : Table) (n : String) (c : String) (h : c ≠ n) :
    getCol (removeCol t n) c = getCol t c := by
  induction t with
  | nil => simp [removeCol, getCol]
  | cons a t ih =>
    unfold removeCol at ih ⊢
    rw [List.filter_cons]
    by_cases han : a.1 = n
    · have hp : (a.1 != n) = false := by simp [bne, han]
      rw [hp, if_neg (by simp)]
      rw [ih]
      have hac : ¬ (a.1 = c) := fun hh => h (by rw [← hh, han])
      simp [getCol, hac]
    · have hp : (a.1 != n) = true := by simp [bne, han]
      rw [hp, if_pos rfl]
      by_cases hac : a.1 = c <;> simp [getCol, hac, ih]

theorem getCol_mem {t : Table} {n : String} {vs : List Value}
    (h : getCol t n = some vs) : (n, vs) ∈ t := by
  induction t with
  | nil => simp [getCol] at h
  | cons a t ih =>
    by_cases hac : a.1 = n
    · simp [getCol, hac] at h
      have : a = (n, vs) := by
        cases a
        simp_all
      rw [← this]
      exact List.mem_cons_self _ _
    · simp [getCol, hac] at h
      exact List.mem_cons_of_mem _ (ih h)

theorem exceptBind_ok {α β : Type} {x : Except Err α} {f : α → Except Err β} {b : β}
    (h : (x >>= f) = .ok b) : ∃ a, x = .ok a ∧ f a = .ok b := by
  cases x with
  | error e => simp [Bind.bind, Except.bind] at h
  | ok a => exact ⟨a, rfl, by simpa [Bind.bind, Except.bind] using h⟩

/- ---------- cell-level lemmas ---------- -/

theorem allNumB_iff {vs : List Value} :
    allNumB vs = true ↔ ∀ v ∈ vs, ∃ q, v = Value.vnum q := by
  rw [allNumB, List.all_eq_true]
  constructor
  · intro h v hv
    have := h v hv
    cases v with
    | vnum q => exact ⟨q, rfl⟩
    | vstr s => simp at this
    | vmiss => simp at this
  · intro h v hv
    obtain ⟨q, rfl⟩ := h v hv
    rfl

theorem allNumB_replicate (n : Nat) (q : Frac) :
    allNumB (List.replicate n (Value.vnum q)) = true := by
  rw [allNumB_iff]
  intro v hv
  rw [List.eq_of_mem_replicate hv]
  exact ⟨q, rfl⟩

theorem numericCol_iff {vs : List Value} :
    numericCol vs = true ↔ ∀ v ∈ vs, isNumOrMiss v = true := by
  rw [numericCol, List.all_eq_true]

theorem no_miss_of_allNumB {vs : List Value} (h : allNumB vs = true) :
    ∀ v ∈ vs, v ≠ Value.vmiss := by
  intro v hv
  obtain ⟨q, rfl⟩ := allNumB_iff.mp h v hv
  simp

theorem fillWith_of_no_miss {vs : List Value} {m : Option Frac}
    (h : ∀ v ∈ vs, v ≠ Value.vmiss) : fillWith vs m = vs := by
  cases m with
  | none => rfl
  | some q =>
    show vs.map _ = vs
    induction vs with
    | nil => rfl
    | cons x xs ih =>
      have hx : x ≠ Value.vmiss := h x (List.mem_cons_self _ _)
      have ihx : ∀ v ∈ xs, v ≠ Value.vmiss := fun v hv => h v (List.mem_cons_of_mem _ hv)
      simp only [List.map_cons, if_neg hx, ih ihx]

theorem fillMedian_of_allNum {vs : List Value} (h : allNumB vs = true) :
    fillMedian vs = vs :=
  fillWith_of_no_miss (no_miss_of_allNumB h)

theorem length_insertNum (q : Frac) (l : List Frac) :
    (insertNum q l).length = l.length + 1 := by
  induction l with
  | nil => rfl
  | cons x xs ih =>
    unfold insertNum
    by_cases h : q ≤ x <;> simp [h, ih]

theorem length_sortNums (l : List Frac) : (sortNums l).length = l.length := by
  induction l with
  | nil => rfl
  | cons x xs ih =>
    show (insertNum x (sortNums xs)).length = _
    rw [length_insertNum, ih, List.length_cons]

theorem batchMedian_some {vs : List Value} (h : presentNums vs ≠ []) :
    ∃ m, batchMedian vs = some m := by
  unfold batchMedian medianOfSorted
  have hlen : (sortNums (presentNums vs)).length ≠ 0 := by
    rw [length_sortNums]
    simpa using h
  rw [if_neg hlen]
  by_cases hodd : (sortNums (presentNums vs)).length % 2 = 1 <;> simp [hodd]

theorem allNumB_fillMedian {vs : List Value}
    (h1 : numericCol vs = true) (h2 : presentNums vs ≠ []) :
    allNumB (fillMedian vs) = true := by
  obtain ⟨m, hm⟩ := batchMedian_some h2
  unfold fillMedian
  rw [hm]
  rw [allNumB_iff]
  intro v hv
  rw [fillWith] at hv
  simp only [List.mem_map] at hv
  obtain ⟨u, hu, rfl⟩ := hv
  have := numericCol_iff.mp h1 u hu
  cases u with
  | vnum q => exact ⟨q, by simp⟩
  | vstr s => simp [isNumOrMiss] at this
  | vmiss => exact ⟨m, by simp⟩

theorem addCols_fill0 {xs ys : List Value}
    (hx : numericCol xs = true) (hy : numericCol ys = true)
    (hl : xs.length = ys.length) :
    addCols (xs.map fill0) (ys.map fill0) =
      .ok (List.zipWith (fun a b => Value.vnum (numOr0 a + numOr0 b)) xs ys) := by
  induction xs generalizing ys with
  | nil =>
    cases ys with
    | nil => rfl
    | cons y ys => simp at hl
  | cons x xs ih =>
    cases ys with
    | nil => simp at hl
    | cons y ys =>
      have hx1 : isNumOrMiss x = true := numericCol_iff.mp hx x (List.mem_cons_self _ _)
      have hy1 : isNumOrMiss y = true := numericCol_iff.mp hy y (List.mem_cons_self _ _)
      have hx2 : numericCol xs = true := by
        rw [numericCol_iff]
        exact fun v hv => numericCol_iff.mp hx v (List.mem_cons_of_mem _ hv)
      have hy2 : numericCol ys = true := by
        rw [numericCol_iff]
        exact fun v hv => numericCol_iff.mp hy v (List.mem_cons_of_mem _ hv)
      have hl2 : xs.length = ys.length := by simpa using hl
      have hstep : addV (fill0 x) (fill0 y) = .ok (.vnum (numOr0 x + numOr0 y)) := by
        cases x with
        | vnum a =>
          cases y with
          | vnum b => rfl
          | vstr s => simp [isNumOrMiss] at hy1
          | vmiss => rfl
        | vstr s => simp [isNumOrMiss] at hx1
        | vmiss =>
          cases y with
          | vnum b => simp [fill0, addV, numOr0]
          | vstr s => simp [isNumOrMiss] at hy1
          | vmiss => simp [fill0, addV, numOr0]
      show addCols (fill0 x :: xs.map fill0) (fill0 y :: ys.map fill0) = _
      rw [addCols, hstep]
      simp only [Bind.bind, Except.bind, ih hx2 hy2 hl2, List.zipWith_cons_cons]

theorem allNumB_zipNum (xs ys : List Value) :
    allNumB (List.zipWith (fun a b => Value.vnum (numOr0 a + numOr0 b)) xs ys) = true := by
  induction xs generalizing ys with
  | nil => rfl
  | cons x xs ih =>
    cases ys with
    | nil => rfl
    | cons y ys =>
      rw [List.zipWith_cons_cons]
      rw [allNumB_iff]
      intro v hv
      rcases List.mem_cons.mp hv with h | h
      · exact ⟨_, h⟩
      · exact allNumB_iff.mp (ih ys) v h

theorem sumRow_ok {row : List Value} (h : ∀ v ∈ row, isNumOrMiss v = true) :
    ∃ r, sumRow row = .ok r := by
  induction row with
  | nil => exact ⟨0, rfl⟩
  | cons v row ih =>
    obtain ⟨r, hr⟩ := ih (fun u hu => h u (List.mem_cons_of_mem _ hu))
    cases v with
    | vnum a => exact ⟨a + r, by rw [sumRow, hr]; rfl⟩
    | vstr s => simpa [isNumOrMiss] using h _ (List.mem_cons_self _ _)
    | vmiss => exact ⟨r, by rw [sumRow]; exact hr⟩

theorem rowAt_numOrMiss {cols : List (List Value)}
    (h : ∀ c ∈ cols, numericCol c = true) (i : Nat) :
    ∀ v ∈ rowAt cols i, isNumOrMiss v = true := by
  intro v hv
  rw [rowAt, List.mem_map] at hv
  obtain ⟨c, hc, rfl⟩ := hv
  rcases hg : c.get? i with _ | u
  · rw [List.get?_eq_getElem?] at hg
    simp [List.getD, hg, isNumOrMiss]
  · have hu : u ∈ c := List.get?_mem hg
    have hnm := numericCol_iff.mp (h c hc) u hu
    rw [List.get?_eq_getElem?] at hg
    simpa [List.getD, hg] using hnm

theorem sumAxis1_ok (n : Nat) {cols : List (List Value)}
    (h : ∀ c ∈ cols, numericCol c = true) :
    ∃ sbs, sumAxis1 cols n = .ok sbs ∧ allNumB sbs = true := by
  unfold sumAxis1
  generalize List.range n = l
  induction l with
  | nil => exact ⟨[], rfl, rfl⟩
  | cons i l ih =>
    obtain ⟨sbs, hsbs, hnum⟩ := ih
    obtain ⟨r, hr⟩ := sumRow_ok (rowAt_numOrMiss h i)
    refine ⟨.vnum r :: sbs, ?_, ?_⟩
    · rw [List.mapM_cons, hr, hsbs]
      rfl
    · rw [allNumB_iff]
      intro v hv
      rcases List.mem_cons.mp hv with rfl | hmem
      · exact ⟨r, rfl⟩
      · exact allNumB_iff.mp hnum v hmem

end Vaccine

/- ---------- stage lemmas for pipeline.py preprocess ---------- -/

namespace Vaccine.Pipeline

theorem encodeHI_cases (v : Value) :
    encodeHI v = .vnum 1 ∨ encodeHI v = .vnum 0 ∨ encodeHI v = .vnum (-1) := by
  unfold encodeHI
  by_cases h1 : v = Value.vnum 1
  · rw [if_pos h1]
    exact Or.inl rfl
  · rw [if_neg h1]
    by_cases h0 : v = Value.vnum 0
    · rw [if_pos h0]
      exact Or.inr (Or.inl rfl)
    · rw [if_neg h0]
      exact Or.inr (Or.inr rfl)

theorem allNumB_encodeHI (vs : List Value) : allNumB (vs.map encodeHI) = true := by
  rw [allNumB_iff]
  intro v hv
  rw [List.mem_map] at hv
  obtain ⟨u, _, rfl⟩ := hv
  rcases encodeHI_cases u with h | h | h <;> exact ⟨_, h⟩

theorem isNumOrMiss_applyOrdMap (m : List (String × Frac)) (v : Value) :
    isNumOrMiss (applyOrdMap m v) = true := by
  cases v with
  | vstr s =>
    unfold applyOrdMap
    rcases hg : m.lookup s with _ | q <;> simp [hg, isNumOrMiss]
  | vnum q => rfl
  | vmiss => rfl

theorem numericCol_applyOrdMap (m : List (String × Frac)) (vs : List Value) :
    numericCol (vs.map (applyOrdMap m)) = true := by
  rw [numericCol_iff]
  intro v hv
  rw [List.mem_map] at hv
  obtain ⟨u, _, rfl⟩ := hv
  exact isNumOrMiss_applyOrdMap m u

theorem getCol_stage_drop (t : Table) (c : String)
    (h1 : c ∉ idTargetCols) (h2 : c ∉ highMissingCols) :
    getCol (stage_drop t) c = getCol t c := by
  unfold stage_drop
  rw [getCol_dropCols, getCol_dropCols]
  simp [h1, h2]

theorem getCol_mapIfPresent_other (t : Table) (p : String × List (String × Frac))
    (c : String) (h : c ≠ p.1) :
    getCol (mapIfPresent t p) c = getCol t c := by
  unfold mapIfPresent
  cases hg : getCol t p.1 with
  | none => rfl
  | some vs => simp [getCol_setCol, h]

theorem getCol_mapIfPresent_self (t : Table) (p : String × List (String × Frac)) :
    getCol (mapIfPresent t p) p.1 = (getCol t p.1).map (List.map (applyOrdMap p.2)) := by
  unfold mapIfPresent
  cases hg : getCol t p.1 with
  | none => simp [hg]
  | some vs => simp [hg, getCol_setCol]

theorem stage_ord_eq (t : Table) :
    stage_ord t =
      mapIfPresent (mapIfPresent (mapIfPresent t ("education", edu_order))
        ("income_poverty", inc_order)) ("age_group", age_order) := rfl

theorem getCol_stage_ord_other (t : Table) (c : String)
    (h1 : c ≠ "education") (h2 : c ≠ "income_poverty") (h3 : c ≠ "age_group") :
    getCol (stage_ord t) c = getCol t c := by
  rw [stage_ord_eq,
    getCol_mapIfPresent_other _ _ _ h3,
    getCol_mapIfPresent_other _ _ _ h2,
    getCol_mapIfPresent_other _ _ _ h1]

theorem getCol_stage_ord_edu (t : Table) :
    getCol (stage_ord t) "education" =
      (getCol t "education").map (List.map (applyOrdMap edu_order)) := by
  rw [stage_ord_eq,
    getCol_mapIfPresent_other _ _ _ (by decide),
    getCol_mapIfPresent_other _ _ _ (by decide)]
  exact getCol_mapIfPresent_self _ _

theorem getCol_stage_ord_inc (t : Table) :
    getCol (stage_ord t) "income_poverty" =
      (getCol t "income_poverty").map (List.map (applyOrdMap inc_order)) := by
  rw [stage_ord_eq, getCol_mapIfPresent_other _ _ _ (by decide)]
  rw [show ("income_poverty" : String) = ("income_poverty", inc_order).1 from rfl,
    getCol_mapIfPresent_self]
  rw [getCol_mapIfPresent_other _ _ _ (by decide)]

theorem getCol_stage_ord_age (t : Table) :
    getCol (stage_ord t) "age_group" =
      (getCol t "age_group").map (List.map (applyOrdMap age_order)) := by
  rw [stage_ord_eq]
  rw [show ("age_group" : String) = ("age_group", age_order).1 from rfl,
    getCol_mapIfPresent_self]
  rw [getCol_mapIfPresent_other _ _ _ (by decide),
    getCol_mapIfPresent_other _ _ _ (by decide)]

theorem needCol_of_some {t : Table} {n : String} {vs : List Value}
    (h : getCol t n = some vs) : needCol t n = .ok vs := by
  unfold needCol
  rw [h]

theorem needCol_ok {t : Table} {n : String} {vs : List Value}
    (h : needCol t n = .ok vs) : getCol t n = some vs := by
  unfold needCol at h
  cases hg : getCol t n <;> rw [hg] at h <;> simp_all

theorem trackP_refl (t : Table) (c : String) : TrackP t t c :=
  ⟨fun _ h => h, fun h => Or.inl h⟩

theorem trackP_trans {t1 t2 t3 : Table} {c : String}
    (a : TrackP t1 t2 c) (b : TrackP t2 t3 c) : TrackP t1 t3 c := by
  refine ⟨fun vs h => b.1 vs (a.1 vs h), fun h => ?_⟩
  rcases a.2 h with h2 | ⟨ds, hds, hnum⟩
  · exact b.2 h2
  · exact Or.inr ⟨ds, b.1 ds hds, hnum⟩

theorem allNumB_dummy {col : String} {vs : List Value} {c : String} {ds : List Value}
    (h : getCol (dummyCols col vs) c = some ds) : allNumB ds = true := by
  have hmem := getCol_mem h
  rw [dummyCols, List.mem_map] at hmem
  obtain ⟨s, _, heq⟩ := hmem
  have hds : ds = vs.map (fun v => if v = .vstr s then Value.vnum 1 else Value.vnum 0) :=
    congrArg Prod.snd heq.symm
  rw [hds, allNumB_iff]
  intro v hv
  rw [List.mem_map] at hv
  obtain ⟨u, _, rfl⟩ := hv
  by_cases hu : u = Value.vstr s <;> simp [hu]

theorem oneHotCol_inv {t t' : Table} {col : String}
    (h : oneHotCol t col = .ok t') :
    ∃ vs, getCol t col = some vs ∧ vs.all strOrMiss = true ∧
      t' = removeCol t col ++ dummyCols col vs := by
  unfold oneHotCol at h
  cases hg : getCol t col with
  | none => rw [hg] at h; simp at h
  | some vs =>
    rw [hg] at h
    by_cases hs : vs.all strOrMiss = true
    · refine ⟨vs, rfl, hs, ?_⟩
      simp [hs] at h
      exact h.symm
    · simp [hs] at h

theorem oneHotCol_track {t t' : Table} {col : String}
    (h : oneHotCol t col = .ok t') (c : String) (hc : c ≠ col) : TrackP t t' c := by
  obtain ⟨vs, _, _, rfl⟩ := oneHotCol_inv h
  constructor
  · intro ws hw
    rw [getCol_append, getCol_removeCol _ _ _ hc, hw]
    rfl
  · intro hn
    rw [getCol_append, getCol_removeCol _ _ _ hc, hn]
    cases hd : getCol (dummyCols col vs) c with
    | none => exact Or.inl (by simp [hd])
    | some ds => exact Or.inr ⟨ds, by simp [hd], allNumB_dummy hd⟩

theorem foldlM_oneHot_track :
    ∀ (l : List String) (t t' : Table), l.foldlM oneHotCol t = .ok t' →
      ∀ c, c ∉ l → TrackP t t' c := by
  intro l
  induction l with
  | nil =>
    intro t t' h c _
    rw [List.foldlM_nil] at h
    have ht : t' = t := by
      have := h
      simp only [pure, Except.pure] at this
      exact (Except.ok.inj this).symm
    rw [ht]
    exact trackP_refl t c
  | cons a l ih =>
    intro t t' h c hc
    rw [List.foldlM_cons] at h
    obtain ⟨t1, h1, h2⟩ := exceptBind_ok h
    have hca : c ≠ a := fun hh => hc (hh ▸ List.mem_cons_self _ _)
    exact trackP_trans (oneHotCol_track h1 c hca)
      (ih t1 t' h2 c (fun hh => hc (List.mem_cons_of_mem _ hh)))

theorem stage_onehot_track {t t' : Table} (h : stage_onehot t = .ok t')
    (c : String) (hc : c ∉ cats) : TrackP t t' c := by
  unfold stage_onehot at h
  by_cases hm : (cats.filter (fun n => !(hasCol t n))).isEmpty
  · rw [if_pos hm] at h
    exact foldlM_oneHot_track cats t t' h c hc
  · rw [if_neg hm] at h
    simp at h

theorem foldlM_oneHot_ok :
    ∀ (l : List String), l.Pairwise (· ≠ ·) → ∀ (t : Table),
      (∀ n ∈ l, ∃ vs, getCol t n = some vs ∧ vs.all strOrMiss = true) →
      ∃ t', l.foldlM oneHotCol t = .ok t' := by
  intro l
  induction l with
  | nil => exact fun _ t _ => ⟨t, by rw [List.foldlM_nil]; rfl⟩
  | cons a l ih =>
    intro hpw t hall
    obtain ⟨vs, hvs, hstr⟩ := hall a (List.mem_cons_self _ _)
    have h1 : oneHotCol t a = .ok (removeCol t a ++ dummyCols a vs) := by
      simp [oneHotCol, hvs, hstr]
    have hall2 : ∀ n ∈ l, ∃ ws, getCol (removeCol t a ++ dummyCols a vs) n = some ws ∧
        ws.all strOrMiss = true := by
      intro n hn
      obtain ⟨ws, hws, hstr2⟩ := hall n (List.mem_cons_of_mem _ hn)
      have hna : n ≠ a := (List.pairwise_cons.mp hpw).1 n hn ∘ Eq.symm
      exact ⟨ws, (oneHotCol_track h1 n hna).1 ws hws, hstr2⟩
    obtain ⟨t', ht'⟩ := ih (List.pairwise_cons.mp hpw).2 _ hall2
    refine ⟨t', ?_⟩
    rw [List.foldlM_cons, h1]
    simpa [Bind.bind, Except.bind] using ht'

theorem stage_onehot_ok {t : Table}
    (h : ∀ n ∈ cats, ∃ vs, getCol t n = some vs ∧ vs.all strOrMiss = true) :
    ∃ t', stage_onehot t = .ok t' := by
  have hfil : cats.filter (fun n => !(hasCol t n)) = [] := by
    rw [List.filter_eq_nil_iff]
    intro n hn
    obtain ⟨vs, hvs, _⟩ := h n hn
    simp [hasCol, hvs]
  obtain ⟨t', ht'⟩ := foldlM_oneHot_ok cats (by decide) t h
  exact ⟨t', by rw [stage_onehot, hfil]; exact ht'⟩

theorem getCol_stage_impute (t : Table) (c : String) :
    getCol (stage_impute t) c =
      (getCol t c).map (fun vs => if numericCol vs then fillMedian vs else vs) := by
  induction t with
  | nil => simp [stage_impute, getCol]
  | cons a t ih =>
    show getCol ((if numericCol a.2 then (a.1, fillMedian a.2) else a) :: stage_impute t) c = _
    by_cases hnum : numericCol a.2 <;> by_cases hac : a.1 = c <;>
      simp [hnum, getCol, hac, ih]

theorem reconcile_names (t : Table) :
    (stage_reconcile t).map (fun c => c.1) = EXPECTED_COLS := by
  unfold stage_reconcile
  rw [List.map_map]
  rfl

theorem getCol_tabulate {l : List String} {F : String → List Value} {c : String}
    (hc : c ∈ l) :
    getCol (l.map (fun n => (n, F n))) c = some (F c) := by
  induction l with
  | nil => simp at hc
  | cons a l ih =>
    by_cases hca : a = c
    · subst hca
      simp [getCol]
    · rcases List.mem_cons.mp hc with h | h
      · exact absurd h.symm hca
      · show getCol ((a, F a) :: _) c = _
        simp only [getCol, if_neg hca]
        exact ih h

theorem getCol_reconcile {t : Table} {c : String} (hc : c ∈ EXPECTED_COLS) :
    getCol (stage_reconcile t) c =
      some ((getCol t c).getD (List.replicate (nrows t) (Value.vnum 0))) :=
  getCol_tabulate hc

theorem preprocess_ok_inv {t out : Table} (h : preprocess t = .ok out) :
    ∃ t2 t4 t5 t6 t7,
      stage_hi (stage_drop t) = .ok t2 ∧
      stage_household (stage_ord t2) = .ok t4 ∧
      stage_sbs t4 = .ok t5 ∧
      stage_dr t5 = .ok t6 ∧
      stage_onehot t6 = .ok t7 ∧
      out = stage_reconcile (stage_impute t7) := by
  unfold preprocess at h
  obtain ⟨t2, h2, h⟩ := exceptBind_ok h
  obtain ⟨t4, h4, h⟩ := exceptBind_ok h
  obtain ⟨t5, h5, h⟩ := exceptBind_ok h
  obtain ⟨t6, h6, h⟩ := exceptBind_ok h
  obtain ⟨t7, h7, h⟩ := exceptBind_ok h
  exact ⟨t2, t4, t5, t6, t7, h2, h4, h5, h6, h7, by simpa using h.symm⟩

theorem stage_hi_inv {t t' : Table} (h : stage_hi t = .ok t') :
    ∃ vs, getCol t "health_insurance" = some vs ∧
      t' = setCol t "health_insurance" (vs.map encodeHI) := by
  unfold stage_hi at h
  cases hg : getCol t "health_insurance" with
  | none => rw [hg] at h; simp at h
  | some vs =>
    rw [hg] at h
    exact ⟨vs, rfl, by simpa using h.symm⟩

theorem stage_household_inv {t t' : Table} (h : stage_household t = .ok t') :
    ∃ a c hs, getCol t "household_adults" = some a ∧
      getCol t "household_children" = some c ∧
      addCols (a.map fill0) (c.map fill0) = .ok hs ∧
      t' = setCol t "household_size" hs := by
  unfold stage_household at h
  obtain ⟨a, ha, h⟩ := exceptBind_ok h
  obtain ⟨c, hc, h⟩ := exceptBind_ok h
  obtain ⟨hs, hhs, h⟩ := exceptBind_ok h
  exact ⟨a, c, hs, needCol_ok ha, needCol_ok hc, hhs, by simpa using h.symm⟩

theorem stage_sbs_inv {t t' : Table} (h : stage_sbs t = .ok t') :
    ∃ cols sbs, selectCols t safe_behaviors = .ok cols ∧
      sumAxis1 cols (nrows t) = .ok sbs ∧
      t' = setCol t "safe_behavior_score" sbs := by
  unfold stage_sbs at h
  obtain ⟨cols, hc, h⟩ := exceptBind_ok h
  obtain ⟨sbs, hs, h⟩ := exceptBind_ok h
  exact ⟨cols, sbs, hc, hs, by simpa using h.symm⟩

theorem stage_dr_inv {t t' : Table} (h : stage_dr t = .ok t') :
    ∃ a b db, getCol t "doctor_recc_h1n1" = some a ∧
      getCol t "doctor_recc_seasonal" = some b ∧
      addCols (a.map fill0) (b.map fill0) = .ok db ∧
      t' = dropCols ["doctor_recc_h1n1", "doctor_recc_seasonal"]
            (setCol t "doctor_recc_both" db) := by
  unfold stage_dr at h
  obtain ⟨a, ha, h⟩ := exceptBind_ok h
  obtain ⟨b, hb, h⟩ := exceptBind_ok h
  obtain ⟨db, hdb, h⟩ := exceptBind_ok h
  exact ⟨a, b, db, needCol_ok ha, needCol_ok hb, hdb, by simpa using h.symm⟩

/- forward (success) forms of the fallible stages -/

theorem stage_hi_eq {t : Table} {vs : List Value}
    (h : getCol t "health_insurance" = some vs) :
    stage_hi t = .ok (setCol t "health_insurance" (vs.map encodeHI)) := by
  unfold stage_hi
  rw [h]

theorem stage_household_eq {t : Table} {as cs hs : List Value}
    (ha : getCol t "household_adults" = some as)
    (hc : getCol t "household_children" = some cs)
    (hadd : addCols (as.map fill0) (cs.map fill0) = .ok hs) :
    stage_household t = .ok (setCol t "household_size" hs) := by
  unfold stage_household
  rw [needCol_of_some ha]
  simp only [Bind.bind, Except.bind]
  rw [needCol_of_some hc]
  simp only [hadd]

theorem selectCols_eq {t : Table} {ns : List String}
    (h : ∀ n ∈ ns, hasCol t n = true) :
    selectCols t ns = .ok (ns.map (fun n => (getCol t n).getD [])) := by
  unfold selectCols
  have hfil : ns.filter (fun n => !(hasCol t n)) = [] := by
    rw [List.filter_eq_nil_iff]
    intro n hn
    simp [h n hn]
  rw [hfil]
  rfl

theorem stage_sbs_eq {t : Table} {cols : List (List Value)} {sbs : List Value}
    (hsel : selectCols t safe_behaviors = .ok cols)
    (hsum : sumAxis1 cols (nrows t) = .ok sbs) :
    stage_sbs t = .ok (setCol t "safe_behavior_score" sbs) := by
  unfold stage_sbs
  rw [hsel]
  simp only [Bind.bind, Except.bind]
  rw [hsum]

theorem stage_dr_eq {t : Table} {as bs db : List Value}
    (ha : getCol t "doctor_recc_h1n1" = some as)
    (hb : getCol t "doctor_recc_seasonal" = some bs)
    (hadd : addCols (as.map fill0) (bs.map fill0) = .ok db) :
    stage_dr t = .ok (dropCols ["doctor_recc_h1n1", "doctor_recc_seasonal"]
      (setCol t "doctor_recc_both" db)) := by
  unfold stage_dr
  rw [needCol_of_some ha]
  simp only [Bind.bind, Except.bind]
  rw [needCol_of_some hb]
  simp only [hadd]

end Vaccine.Pipeline

/- ---------- generic consequences used by the schema theorem ---------- -/

namespace Vaccine

theorem numericCol_of_allNumB {vs : List Value} (h : allNumB vs = true) :
    numericCol vs = true := by
  rw [numericCol_iff]
  intro v hv
  obtain ⟨q, rfl⟩ := allNumB_iff.mp h v hv
  rfl

theorem allNumB_impute {vs : List Value}
    (h : (numericCol vs = true ∧ presentNums vs ≠ []) ∨ allNumB vs = true) :
    allNumB (if numericCol vs then fillMedian vs else vs) = true := by
  rcases h with ⟨hn, hp⟩ | ha
  · rw [if_pos hn]
    exact allNumB_fillMedian hn hp
  · rw [if_pos (numericCol_of_allNumB ha), fillMedian_of_allNum ha]
    exact ha

theorem length_of_getCol {t : Table} {n : String} {vs : List Value}
    (hr : t.all (fun c => c.2.length == nrows t) = true)
    (h : getCol t n = some vs) : vs.length = nrows t := by
  have hmem := getCol_mem h
  have := List.all_eq_true.mp hr (n, vs) hmem
  simpa using this

end Vaccine

namespace Vaccine.Pipeline

/- columns untouched by the feature-synthesis stages -/
theorem getCol_chain36 {t3 t4 t5 t6 : Table}
    (h4 : stage_household t3 = .ok t4)
    (h5 : stage_sbs t4 = .ok t5)
    (h6 : stage_dr t5 = .ok t6)
    (c : String)
    (hc2 : c ∉ engineeredCols) (hc3 : c ∉ drCols) :
    getCol t6 c = getCol t3 c := by
  have hcs : c ≠ "household_size" ∧ c ≠ "safe_behavior_score" ∧ c ≠ "doctor_recc_both" := by
    simpa [engineeredCols] using hc2
  have hdr : c ≠ "doctor_recc_h1n1" ∧ c ≠ "doctor_recc_seasonal" := by
    simpa [drCols] using hc3
  obtain ⟨a, b, hs, _, _, _, rfl⟩ := stage_household_inv h4
  obtain ⟨cols, sbs, _, _, rfl⟩ := stage_sbs_inv h5
  obtain ⟨x, y, db, _, _, _, rfl⟩ := stage_dr_inv h6
  rw [getCol_dropCols, if_neg (by simp [hdr.1, hdr.2])]
  rw [getCol_setCol, if_neg hcs.2.2]
  rw [getCol_setCol, if_neg hcs.2.1]
  rw [getCol_setCol, if_neg hcs.1]

theorem getCol_chain26 {t2 t4 t5 t6 : Table}
    (h4 : stage_household (stage_ord t2) = .ok t4)
    (h5 : stage_sbs t4 = .ok t5)
    (h6 : stage_dr t5 = .ok t6)
    (c : String)
    (hc1 : c ∉ ordCols) (hc2 : c ∉ engineeredCols) (hc3 : c ∉ drCols) :
    getCol t6 c = getCol t2 c := by
  have hord : c ≠ "education" ∧ c ≠ "income_poverty" ∧ c ≠ "age_group" := by
    simpa [ordCols] using hc1
  rw [getCol_chain36 h4 h5 h6 c hc2 hc3]
  exact getCol_stage_ord_other t2 c hord.1 hord.2.1 hord.2.2

theorem trackP_full {t t2 t4 t5 t6 t7 : Table}
    (h2 : stage_hi (stage_drop t) = .ok t2)
    (h4 : stage_household (stage_ord t2) = .ok t4)
    (h5 : stage_sbs t4 = .ok t5)
    (h6 : stage_dr t5 = .ok t6)
    (h7 : stage_onehot t6 = .ok t7)
    (c : String)
    (hi1 : c ∉ idTargetCols) (hi2 : c ∉ highMissingCols)
    (hi3 : c ≠ "health_insurance")
    (hc1 : c ∉ ordCols) (hc2 : c ∉ engineeredCols) (hc3 : c ∉ drCols)
    (hc4 : c ∉ cats) :
    getCol t6 c = getCol t c ∧ TrackP t t7 c := by
  obtain ⟨hvs, _, rfl⟩ := stage_hi_inv h2
  have e1 : getCol t6 c = getCol t c := by
    rw [getCol_chain26 h4 h5 h6 c hc1 hc2 hc3]
    rw [getCol_setCol, if_neg hi3]
    exact getCol_stage_drop t c hi1 hi2
  have tr7 := stage_onehot_track h7 c hc4
  refine ⟨e1, ?_, ?_⟩
  · intro vs h
    exact tr7.1 vs (by rw [e1, h])
  · intro h
    exact tr7.2 (by rw [e1, h])

end Vaccine.Pipeline

namespace Vaccine.Pipeline

/- schema determinism for pipeline.py preprocess, on valid batches in which
   every numeric column still has a usable (mappable) present value -/
theorem schema_of_validBatch {t : Table} (hv : ValidBatch t) :
    ∃ out, preprocess t = .ok out ∧
      out.map (fun c => c.1) = EXPECTED_COLS ∧
      ∀ p ∈ out, allNumB p.2 = true := by
  obtain ⟨hrect, hsrc, hhi, hcats, hother, hordv⟩ := hv
  have hsrc' : ∀ n ∈ srcNumCols, ∃ vs, getCol t n = some vs ∧ numericCol vs = true := by
    intro n hn
    have hb := List.all_eq_true.mp hsrc n hn
    unfold colSatB at hb
    cases hg : getCol t n with
    | none => rw [hg] at hb; simp at hb
    | some vs =>
      rw [hg] at hb
      exact ⟨vs, rfl, hb⟩
  have hcats' : ∀ n ∈ cats, ∃ vs, getCol t n = some vs ∧ vs.all strOrMiss = true := by
    intro n hn
    have hb := List.all_eq_true.mp hcats n hn
    unfold colSatB at hb
    cases hg : getCol t n with
    | none => rw [hg] at hb; simp at hb
    | some vs =>
      rw [hg] at hb
      exact ⟨vs, rfl, hb⟩
  have hother' : ∀ n vs, getCol t n = some vs → n ∉ specialCols →
      numericCol vs = true ∧ presentNums vs ≠ [] := by
    intro n vs hg hn
    have hb := List.all_eq_true.mp hother (n, vs) (getCol_mem hg)
    have hcon : specialCols.contains n = false := by
      simp [hn]
    simp only [hcon, Bool.false_or, Bool.and_eq_true] at hb
    refine ⟨hb.1, ?_⟩
    have := hb.2
    simpa [List.isEmpty_iff] using this
  have hord' : ∀ p ∈ ordPairs, ∀ vs, getCol t p.1 = some vs →
      presentNums (vs.map (applyOrdMap p.2)) ≠ [] := by
    intro p hp vs hg
    have hb := List.all_eq_true.mp hordv p hp
    rw [hg] at hb
    simpa [List.isEmpty_iff] using hb
  -- stage 1-2: drops and health-insurance encoding
  obtain ⟨hivs, hhi'⟩ : ∃ vs, getCol t "health_insurance" = some vs := by
    unfold hasCol at hhi
    cases hg : getCol t "health_insurance" with
    | none => rw [hg] at hhi; simp at hhi
    | some vs => exact ⟨vs, rfl⟩
  have hhi1 : getCol (stage_drop t) "health_insurance" = some hivs := by
    rw [getCol_stage_drop t _ (by decide) (by decide)]
    exact hhi'
  have h2 : stage_hi (stage_drop t) =
      .ok (setCol (stage_drop t) "health_insurance" (hivs.map encodeHI)) :=
    stage_hi_eq hhi1
  set t2 := setCol (stage_drop t) "health_insurance" (hivs.map encodeHI) with ht2
  -- tracking a plain column into t3 = stage_ord t2
  have track_t3 : ∀ c : String, c ∉ idTargetCols → c ∉ highMissingCols →
      c ≠ "health_insurance" → c ∉ ordCols →
      getCol (stage_ord t2) c = getCol t c := by
    intro c hA hB hC hD
    have hcord : c ≠ "education" ∧ c ≠ "income_poverty" ∧ c ≠ "age_group" := by
      simpa [ordCols] using hD
    rw [getCol_stage_ord_other t2 c hcord.1 hcord.2.1 hcord.2.2, ht2,
      getCol_setCol, if_neg hC]
    exact getCol_stage_drop t c hA hB
  -- stage 4: household_size
  obtain ⟨avs, hga, hna⟩ := hsrc' "household_adults" (by decide)
  obtain ⟨cvs, hgc, hnc⟩ := hsrc' "household_children" (by decide)
  have hla : avs.length = nrows t := length_of_getCol hrect hga
  have hlc : cvs.length = nrows t := length_of_getCol hrect hgc
  have hga3 : getCol (stage_ord t2) "household_adults" = some avs := by
    rw [track_t3 _ (by decide) (by decide) (by decide) (by decide)]
    exact hga
  have hgc3 : getCol (stage_ord t2) "household_children" = some cvs := by
    rw [track_t3 _ (by decide) (by decide) (by decide) (by decide)]
    exact hgc
  have haddh := addCols_fill0 hna hnc (hla.trans hlc.symm)
  set hsvals := List.zipWith (fun a b => Value.vnum (numOr0 a + numOr0 b)) avs cvs with hhsv
  have h4 : stage_household (stage_ord t2) =
      .ok (setCol (stage_ord t2) "household_size" hsvals) :=
    stage_household_eq hga3 hgc3 haddh
  set t4 := setCol (stage_ord t2) "household_size" hsvals with ht4
  have track_t4 : ∀ c : String, c ∉ idTargetCols → c ∉ highMissingCols →
      c ≠ "health_insurance" → c ∉ ordCols → c ≠ "household_size" →
      getCol t4 c = getCol t c := by
    intro c hA hB hC hD hE
    rw [ht4, getCol_setCol, if_neg hE]
    exact track_t3 c hA hB hC hD
  -- stage 5: safe_behavior_score
  have hbeh : ∀ n ∈ safe_behaviors, ∃ vs, getCol t4 n = some vs ∧ numericCol vs = true := by
    intro n hn
    have hmem : n ∈ srcNumCols := List.mem_append_right _ hn
    obtain ⟨vs, hg, hnum⟩ := hsrc' n hmem
    refine ⟨vs, ?_, hnum⟩
    have hA : n ∉ idTargetCols := by fin_cases hn <;> decide
    have hB : n ∉ highMissingCols := by fin_cases hn <;> decide
    have hC : n ≠ "health_insurance" := by fin_cases hn <;> decide
    have hD : n ∉ ordCols := by fin_cases hn <;> decide
    have hE : n ≠ "household_size" := by fin_cases hn <;> decide
    rw [track_t4 n hA hB hC hD hE]
    exact hg
  have hsel : selectCols t4 safe_behaviors =
      .ok (safe_behaviors.map (fun n => (getCol t4 n).getD [])) := by
    refine selectCols_eq ?_
    intro n hn
    obtain ⟨vs, hg, _⟩ := hbeh n hn
    simp [hasCol, hg]
  have hcolsnum : ∀ c ∈ safe_behaviors.map (fun n => (getCol t4 n).getD []),
      numericCol c = true := by
    intro c hc
    rw [List.mem_map] at hc
    obtain ⟨n, hn, rfl⟩ := hc
    obtain ⟨vs, hg, hnum⟩ := hbeh n hn
    rw [hg]
    exact hnum
  obtain ⟨sbsv, hsum, hsbsnum⟩ := sumAxis1_ok (nrows t4) hcolsnum
  have h5 : stage_sbs t4 = .ok (setCol t4 "safe_behavior_score" sbsv) :=
    stage_sbs_eq hsel hsum
  set t5 := setCol t4 "safe_behavior_score" sbsv with ht5
  -- stage 6: doctor_recc_both
  obtain ⟨xvs, hgx, hnx⟩ := hsrc' "doctor_recc_h1n1" (by decide)
  obtain ⟨yvs, hgy, hny⟩ := hsrc' "doctor_recc_seasonal" (by decide)
  have hlx : xvs.length = nrows t := length_of_getCol hrect hgx
  have hly : yvs.length = nrows t := length_of_getCol hrect hgy
  have hgx5 : getCol t5 "doctor_recc_h1n1" = some xvs := by
    rw [ht5, getCol_setCol, if_neg (by decide)]
    rw [track_t4 _ (by decide) (by decide) (by decide) (by decide) (by decide)]
    exact hgx
  have hgy5 : getCol t5 "doctor_recc_seasonal" = some yvs := by
    rw [ht5, getCol_setCol, if_neg (by decide)]
    rw [track_t4 _ (by decide) (by decide) (by decide) (by decide) (by decide)]
    exact hgy
  have haddd := addCols_fill0 hnx hny (hlx.trans hly.symm)
  set dbv := List.zipWith (fun a b => Value.vnum (numOr0 a + numOr0 b)) xvs yvs with hdbv
  have h6 : stage_dr t5 = .ok (dropCols ["doctor_recc_h1n1", "doctor_recc_seasonal"]
      (setCol t5 "doctor_recc_both" dbv)) :=
    stage_dr_eq hgx5 hgy5 haddd
  set t6 := dropCols ["doctor_recc_h1n1", "doctor_recc_seasonal"]
      (setCol t5 "doctor_recc_both" dbv) with ht6
  have track_t6 : ∀ c : String, c ≠ "safe_behavior_score" → c ≠ "doctor_recc_both" →
      c ∉ drCols → getCol t6 c = getCol t4 c := by
    intro c hE hF hG
    have hdr : c ≠ "doctor_recc_h1n1" ∧ c ≠ "doctor_recc_seasonal" := by
      simpa [drCols] using hG
    rw [ht6, getCol_dropCols, if_neg (by simp [hdr.1, hdr.2]),
      getCol_setCol, if_neg hF, ht5, getCol_setCol, if_neg hE]
  -- stage 7: one-hot
  have hcats6 : ∀ n ∈ cats, ∃ vs, getCol t6 n = some vs ∧ vs.all strOrMiss = true := by
    intro n hn
    obtain ⟨vs, hg, hstr⟩ := hcats' n hn
    refine ⟨vs, ?_, hstr⟩
    have hE : n ≠ "safe_behavior_score" := by fin_cases hn <;> decide
    have hF : n ≠ "doctor_recc_both" := by fin_cases hn <;> decide
    have hG : n ∉ drCols := by fin_cases hn <;> decide
    have hA : n ∉ idTargetCols := by fin_cases hn <;> decide
    have hB : n ∉ highMissingCols := by fin_cases hn <;> decide
    have hC : n ≠ "health_insurance" := by fin_cases hn <;> decide
    have hD : n ∉ ordCols := by fin_cases hn <;> decide
    have hH : n ≠ "household_size" := by fin_cases hn <;> decide
    rw [track_t6 n hE hF hG, track_t4 n hA hB hC hD hH]
    exact hg
  obtain ⟨t7, h7⟩ := stage_onehot_ok hcats6
  -- the whole pipeline runs
  have hrun : preprocess t = .ok (stage_reconcile (stage_impute t7)) := by
    simp only [preprocess]
    rw [h2]
    simp only [Bind.bind, Except.bind]
    rw [h4]
    simp only [Bind.bind, Except.bind]
    rw [h5]
    simp only [Bind.bind, Except.bind]
    rw [h6]
    simp only [Bind.bind, Except.bind]
    rw [h7]
  refine ⟨stage_reconcile (stage_impute t7), hrun, reconcile_names _, ?_⟩
  -- every produced cell is numeric
  -- per-column goodness facts before imputation
  have huntouched : ∀ m : String, m ∉ specialCols → m ∉ engineeredCols →
      goodPreImpute t7 m := by
    intro m hm1 hm2
    have hm1' : m ∉ idTargetCols ∧ m ∉ highMissingCols ∧ m ≠ "health_insurance" ∧
        m ∉ ordCols ∧ m ∉ drCols ∧ m ∉ cats := by
      simp only [specialCols, List.mem_append, not_or, List.mem_singleton] at hm1
      tauto
    obtain ⟨hA, hB, hC, hD, hE, hF⟩ := hm1'
    obtain ⟨e1, tr⟩ := trackP_full h2 h4 h5 h6 h7 m hA hB hC hD hm2 hE hF
    cases hg : getCol t m with
    | none =>
      rcases tr.2 hg with hnone | ⟨ds, hds, hnum⟩
      · exact Or.inl hnone
      · exact Or.inr ⟨ds, hds, Or.inr hnum⟩
    | some vs =>
      exact Or.inr ⟨vs, tr.1 vs hg, Or.inl (hother' m vs hg hm1)⟩
  have tr7 : ∀ m : String, m ∉ cats → ∀ vs, getCol t6 m = some vs →
      getCol t7 m = some vs :=
    fun m hm vs hvs => (stage_onehot_track h7 m hm).1 vs hvs
  have hHI : goodPreImpute t7 "health_insurance" := by
    have e2 : getCol t2 "health_insurance" = some (hivs.map encodeHI) := by
      rw [ht2, getCol_setCol, if_pos rfl]
    have e6 : getCol t6 "health_insurance" = some (hivs.map encodeHI) := by
      rw [track_t6 _ (by decide) (by decide) (by decide), ht4,
        getCol_setCol, if_neg (by decide),
        getCol_stage_ord_other t2 _ (by decide) (by decide) (by decide)]
      exact e2
    exact Or.inr ⟨_, tr7 _ (by decide) _ e6, Or.inr (allNumB_encodeHI hivs)⟩
  have hHS : goodPreImpute t7 "household_size" := by
    have e4 : getCol t4 "household_size" = some hsvals := by
      rw [ht4, getCol_setCol, if_pos rfl]
    have e6 : getCol t6 "household_size" = some hsvals := by
      rw [track_t6 _ (by decide) (by decide) (by decide)]
      exact e4
    refine Or.inr ⟨_, tr7 _ (by decide) _ e6, Or.inr ?_⟩
    rw [hhsv]
    exact allNumB_zipNum avs cvs
  have hSBS : goodPreImpute t7 "safe_behavior_score" := by
    have e5 : getCol t5 "safe_behavior_score" = some sbsv := by
      rw [ht5, getCol_setCol, if_pos rfl]
    have e6 : getCol t6 "safe_behavior_score" = some sbsv := by
      rw [ht6, getCol_dropCols, if_neg (by decide), getCol_setCol,
        if_neg (by decide)]
      exact e5
    exact Or.inr ⟨_, tr7 _ (by decide) _ e6, Or.inr hsbsnum⟩
  have hDB : goodPreImpute t7 "doctor_recc_both" := by
    have e6 : getCol t6 "doctor_recc_both" = some dbv := by
      rw [ht6, getCol_dropCols, if_neg (by decide), getCol_setCol, if_pos rfl]
    refine Or.inr ⟨_, tr7 _ (by decide) _ e6, Or.inr ?_⟩
    rw [hdbv]
    exact allNumB_zipNum xvs yvs
  have hOrdGood : ∀ p ∈ ordPairs, goodPreImpute t7 p.1 := by
    intro p hp
    have hp2 : getCol t2 p.1 = getCol t p.1 := by
      have hC : p.1 ≠ "health_insurance" := by fin_cases hp <;> decide
      have hA : p.1 ∉ idTargetCols := by fin_cases hp <;> decide
      have hB : p.1 ∉ highMissingCols := by fin_cases hp <;> decide
      rw [ht2, getCol_setCol, if_neg hC]
      exact getCol_stage_drop t _ hA hB
    have hsord : getCol (stage_ord t2) p.1 =
        (getCol t2 p.1).map (List.map (applyOrdMap p.2)) := by
      fin_cases hp
      · exact getCol_stage_ord_edu t2
      · exact getCol_stage_ord_inc t2
      · exact getCol_stage_ord_age t2
    have h36 : getCol t6 p.1 = getCol (stage_ord t2) p.1 := by
      have hE : p.1 ∉ engineeredCols := by fin_cases hp <;> decide
      have hF : p.1 ∉ drCols := by fin_cases hp <;> decide
      rw [ht6, ht5, ht4] at *
      exact getCol_chain36 h4 h5 h6 p.1 hE hF
    cases hg : getCol t p.1 with
    | none =>
      have h6none : getCol t6 p.1 = none := by
        rw [h36, hsord, hp2, hg]
        rfl
      have hcats0 : p.1 ∉ cats := by fin_cases hp <;> decide
      rcases (stage_onehot_track h7 p.1 hcats0).2 h6none with hnone | ⟨ds, hds, hnum⟩
      · exact Or.inl hnone
      · exact Or.inr ⟨ds, hds, Or.inr hnum⟩
    | some vs =>
      have h6some : getCol t6 p.1 = some (vs.map (applyOrdMap p.2)) := by
        rw [h36, hsord, hp2, hg]
        rfl
      have hcats0 : p.1 ∉ cats := by fin_cases hp <;> decide
      refine Or.inr ⟨_, tr7 _ hcats0 _ h6some, Or.inl ⟨?_, ?_⟩⟩
      · exact numericCol_applyOrdMap p.2 vs
      · exact hord' p hp vs hg
  have hEdu : goodPreImpute t7 "education" :=
    hOrdGood ("education", edu_order) (by decide)
  have hInc : goodPreImpute t7 "income_poverty" :=
    hOrdGood ("income_poverty", inc_order) (by decide)
  have hAge : goodPreImpute t7 "age_group" :=
    hOrdGood ("age_group", age_order) (by decide)
  intro p hp
  unfold stage_reconcile at hp
  rw [List.mem_map] at hp
  obtain ⟨n, hn, rfl⟩ := hp
  have hgood : goodPreImpute t7 n := by
    fin_cases hn <;>
      first
        | exact huntouched _ (by decide) (by decide)
        | exact hHI
        | exact hEdu
        | exact hInc
        | exact hAge
        | exact hHS
        | exact hSBS
        | exact hDB
  show allNumB ((getCol (stage_impute t7) n).getD
    (List.replicate (nrows (stage_impute t7)) (Value.vnum 0))) = true
  rcases hgood with hnone | ⟨vs, hsome, hq⟩
  · rw [getCol_stage_impute, hnone]
    exact allNumB_replicate _ 0
  · rw [getCol_stage_impute, hsome]
    exact allNumB_impute hq

end Vaccine.Pipeline

/- ---------- helpers for tracking columns through a given successful run ---------- -/

namespace Vaccine.Pipeline

theorem getCol_out_of_t7 {t7 : Table} {c : String} {vs : List Value}
    (hc : c ∈ EXPECTED_COLS) (h : getCol t7 c = some vs) (hnum : allNumB vs = true) :
    getCol (stage_reconcile (stage_impute t7)) c = some vs := by
  rw [getCol_reconcile hc, getCol_stage_impute, h]
  show some (if numericCol vs then fillMedian vs else vs) = some vs
  rw [if_pos (numericCol_of_allNumB hnum), fillMedian_of_allNum hnum]

theorem getCol_raw3 {t t2 : Table} (h2 : stage_hi (stage_drop t) = .ok t2)
    (c : String) (hA : c ∉ idTargetCols) (hB : c ∉ highMissingCols)
    (hC : c ≠ "health_insurance") (hD1 : c ≠ "education")
    (hD2 : c ≠ "income_poverty") (hD3 : c ≠ "age_group") :
    getCol (stage_ord t2) c = getCol t c := by
  obtain ⟨vs, _, rfl⟩ := stage_hi_inv h2
  rw [getCol_stage_ord_other _ _ hD1 hD2 hD3, getCol_setCol, if_neg hC]
  exact getCol_stage_drop t c hA hB

theorem getCol_raw4 {t t2 t4 : Table} (h2 : stage_hi (stage_drop t) = .ok t2)
    (h4 : stage_household (stage_ord t2) = .ok t4)
    (c : String) (hA : c ∉ idTargetCols) (hB : c ∉ highMissingCols)
    (hC : c ≠ "health_insurance") (hD1 : c ≠ "education")
    (hD2 : c ≠ "income_poverty") (hD3 : c ≠ "age_group")
    (hE : c ≠ "household_size") :
    getCol t4 c = getCol t c := by
  obtain ⟨a, b, hs, _, _, _, rfl⟩ := stage_household_inv h4
  rw [getCol_setCol, if_neg hE]
  exact getCol_raw3 h2 c hA hB hC hD1 hD2 hD3

theorem getCol_raw5 {t t2 t4 t5 : Table} (h2 : stage_hi (stage_drop t) = .ok t2)
    (h4 : stage_household (stage_ord t2) = .ok t4)
    (h5 : stage_sbs t4 = .ok t5)
    (c : String) (hA : c ∉ idTargetCols) (hB : c ∉ highMissingCols)
    (hC : c ≠ "health_insurance") (hD1 : c ≠ "education")
    (hD2 : c ≠ "income_poverty") (hD3 : c ≠ "age_group")
    (hE : c ≠ "household_size") (hF : c ≠ "safe_behavior_score") :
    getCol t5 c = getCol t c := by
  obtain ⟨cols, sbs, _, _, rfl⟩ := stage_sbs_inv h5
  rw [getCol_setCol, if_neg hF]
  exact getCol_raw4 h2 h4 c hA hB hC hD1 hD2 hD3 hE

end Vaccine.Pipeline

namespace Vaccine

theorem numericCol_of_binary {vs : List Value}
    (h : ∀ v ∈ vs, v = Value.vnum 0 ∨ v = Value.vnum 1 ∨ v = Value.vmiss) :
    numericCol vs = true := by
  rw [numericCol_iff]
  intro v hv
  rcases h v hv with rfl | rfl | rfl <;> rfl

theorem zip_binary_bounds :
    ∀ (xs ys : List Value),
      (∀ v ∈ xs, v = Value.vnum 0 ∨ v = Value.vnum 1 ∨ v = Value.vmiss) →
      (∀ v ∈ ys, v = Value.vnum 0 ∨ v = Value.vnum 1 ∨ v = Value.vmiss) →
      ∀ v ∈ List.zipWith (fun a b => Value.vnum (numOr0 a + numOr0 b)) xs ys,
        v = Value.vnum 0 ∨ v = Value.vnum 1 ∨ v = Value.vnum 2 := by
  intro xs
  induction xs with
  | nil =>
    intro ys _ _ v hv
    simp at hv
  | cons x xs ih =>
    intro ys hx hy v hv
    cases ys with
    | nil => simp at hv
    | cons y ys =>
      rw [List.zipWith_cons_cons] at hv
      rcases List.mem_cons.mp hv with rfl | hmem
      · have hx0 := hx x (List.mem_cons_self _ _)
        have hy0 := hy y (List.mem_cons_self _ _)
        rcases hx0 with rfl | rfl | rfl <;> rcases hy0 with rfl | rfl | rfl <;> decide
      · exact ih ys (fun v hv => hx v (List.mem_cons_of_mem _ hv))
          (fun v hv => hy v (List.mem_cons_of_mem _ hv)) v hmem

/- the chained DataPreprocessor entry point can never return normally:
   its final stage raises before reading the table -/
theorem dp_never_returns : ∀ (t out : Table), DataPreprocessor.preprocess t ≠ .ok out := by
  intro t out h
  unfold DataPreprocessor.preprocess at h
  obtain ⟨t5, -, hsp⟩ := exceptBind_ok h
  exact absurd hsp (by simp [DataPreprocessor.split_features_labels])

end Vaccine

/- ---------- the claims ---------- -/

namespace Vaccine

/-- C1 (amended): for every valid input batch, preprocess succeeds and its
output has exactly the 27 expected feature columns in the listed order with
every cell numeric and non-missing — provided each numeric column of the
batch has at least one present (and, for ordinal columns, mappable) value;
indicator columns for categories absent from the batch are synthesized as
constant 0 by the reconciliation stage. -/
theorem C1_schema_amended {t : Table} (hv : Pipeline.ValidBatch t) :
    ∃ out, Pipeline.preprocess t = .ok out ∧
      out.map (fun c => c.1) = Pipeline.EXPECTED_COLS ∧
      ∀ p ∈ out, allNumB p.2 = true :=
  Pipeline.schema_of_validBatch hv

/-- C1 witness: the concrete three-row batch CB. -/
theorem C1_schema_witness :
    ∃ out, Pipeline.preprocess Examples.CB = .ok out ∧
      out.map (fun c => c.1) = Pipeline.EXPECTED_COLS ∧
      ∀ p ∈ out, allNumB p.2 = true :=
  C1_schema_amended (by decide)

/-- C1 counterexample: on a batch whose h1n1_concern column is entirely
missing, preprocess succeeds but the output column is still entirely
missing (the batch median is undefined, so fillna leaves NaN in place),
refuting the unconditional "no missing values" part of the claim. -/
theorem C1_counterexample :
    (Pipeline.preprocess Examples.CBmiss).isOk = true ∧
    (Pipeline.preprocess Examples.CBmiss).toOption.bind
      (fun o => getCol o "h1n1_concern") =
      some [Value.vmiss, Value.vmiss, Value.vmiss] := by decide

/-- C2 (amended): when household_adults is entirely absent from a batch that
passes the health-insurance stage, preprocess fails with a key-lookup error
naming the missing column, and no output table is produced; the error is the
generic pandas KeyError and does not name the derived feature. -/
theorem C2_missing_source_amended {t : Table}
    (hhi : hasCol t "health_insurance" = true)
    (hha : hasCol t "household_adults" = false) :
    Pipeline.preprocess t = .error (.keyError ["household_adults"]) := by
  obtain ⟨hivs, hget⟩ : ∃ vs, getCol t "health_insurance" = some vs := by
    unfold hasCol at hhi
    cases hg : getCol t "health_insurance" with
    | none => rw [hg] at hhi; simp at hhi
    | some vs => exact ⟨vs, rfl⟩
  have hdrop : getCol (Pipeline.stage_drop t) "health_insurance" = some hivs := by
    rw [Pipeline.getCol_stage_drop t _ (by decide) (by decide)]
    exact hget
  have h2 := Pipeline.stage_hi_eq hdrop
  have hnone : getCol t "household_adults" = none := by
    unfold hasCol at hha
    cases hg : getCol t "household_adults" with
    | none => rfl
    | some vs => rw [hg] at hha; simp at hha
  have hnone3 : getCol (Pipeline.stage_ord (setCol (Pipeline.stage_drop t)
      "health_insurance" (hivs.map Pipeline.encodeHI))) "household_adults" = none := by
    rw [Pipeline.getCol_stage_ord_other _ _ (by decide) (by decide) (by decide),
      getCol_setCol, if_neg (by decide),
      Pipeline.getCol_stage_drop t _ (by decide) (by decide)]
    exact hnone
  have hfail : Pipeline.stage_household (Pipeline.stage_ord
      (setCol (Pipeline.stage_drop t) "health_insurance"
        (hivs.map Pipeline.encodeHI))) = .error (.keyError ["household_adults"]) := by
    unfold Pipeline.stage_household
    simp only [Pipeline.needCol, hnone3, Bind.bind, Except.bind]
  simp only [Pipeline.preprocess]
  rw [h2]
  simp only [Bind.bind, Except.bind]
  rw [hfail]

/-- C2 witness: a concrete batch with health_insurance but no
household_adults column. -/
theorem C2_missing_source_witness :
    Pipeline.preprocess Examples.Bhh = .error (.keyError ["household_adults"]) :=
  C2_missing_source_amended (by decide) (by decide)

/-- C2 counterexample: the error raised for the concrete batch carries only
the missing column name; no MissingSourceColumnError naming the derived
feature household_size exists — "household_size" does not occur in the
error payload. -/
theorem C2_counterexample :
    Pipeline.preprocess Examples.Bhh = .error (.keyError ["household_adults"]) ∧
    "household_size" ∉ ["household_adults"] := by decide

/-- C3 (confirmed): for every batch on which preprocess succeeds, the output
health_insurance column is exactly the raw column mapped by the ternary
encoding (1.0 to 1, 0.0 to 0, anything else including missing to -1), so the
encoding runs before median imputation and no other value can appear. -/
theorem C3_health_insurance_ternary {t out : Table} {vs : List Value}
    (hget : getCol t "health_insurance" = some vs)
    (hok : Pipeline.preprocess t = .ok out) :
    getCol out "health_insurance" = some (vs.map Pipeline.encodeHI) ∧
    ∀ v ∈ vs.map Pipeline.encodeHI,
      v = Value.vnum 1 ∨ v = Value.vnum 0 ∨ v = Value.vnum (-1) := by
  obtain ⟨t2, t4, t5, t6, t7, h2, h4, h5, h6, h7, rfl⟩ := Pipeline.preprocess_ok_inv hok
  obtain ⟨ws, hw, ht2⟩ := Pipeline.stage_hi_inv h2
  have hwv : ws = vs := by
    rw [Pipeline.getCol_stage_drop t _ (by decide) (by decide), hget] at hw
    exact (Option.some.inj hw).symm
  subst hwv
  subst ht2
  have e2 : getCol (setCol (Pipeline.stage_drop t) "health_insurance"
      (ws.map Pipeline.encodeHI)) "health_insurance" = some (ws.map Pipeline.encodeHI) := by
    rw [getCol_setCol, if_pos rfl]
  have e6 : getCol t6 "health_insurance" = some (ws.map Pipeline.encodeHI) := by
    rw [Pipeline.getCol_chain26 h4 h5 h6 _ (by decide) (by decide) (by decide)]
    exact e2
  have e7 := (Pipeline.stage_onehot_track h7 _ (by decide)).1 _ e6
  refine ⟨Pipeline.getCol_out_of_t7 (by decide) e7 (Pipeline.allNumB_encodeHI ws), ?_⟩
  intro v hv
  rw [List.mem_map] at hv
  obtain ⟨u, _, rfl⟩ := hv
  exact Pipeline.encodeHI_cases u

/-- C3 witness: on the concrete batch CB, health_insurance [1, missing, 0]
comes out as [1, -1, 0]. -/
theorem C3_witness :
    (Pipeline.preprocess Examples.CB).toOption.map
      (fun o => getCol o "health_insurance") =
      some (some ([Value.vnum 1, Value.vmiss, Value.vnum 0].map Pipeline.encodeHI)) := by
  rcases hok : Pipeline.preprocess Examples.CB with e | out
  · have hok' : (Pipeline.preprocess Examples.CB).isOk = true := by decide
    rw [hok] at hok'
    simp [Except.isOk, Except.toBool] at hok'
  · have h3 := C3_health_insurance_ternary
      (by decide : getCol Examples.CB "health_insurance" =
        some [Value.vnum 1, Value.vmiss, Value.vnum 0]) hok
    simp only [Except.toOption, Option.map]
    rw [h3.1]

end Vaccine

namespace Vaccine

/-- C4 (amended): one-hot expansion of a nominal column whose categories
present in the batch are exactly A, B, C (alphabetical) produces exactly the
indicator columns col_B and col_C and none for A; but the excluded reference
category is the alphabetically first category among those present in the
batch, not a fixed category of the column. -/
theorem C4_reference_category_amended (col A B C : String) (vs : List Value)
    (h : sortedCats vs = [A, B, C]) :
    (dummyCols col vs).map (fun c => c.1) = [col ++ "_" ++ B, col ++ "_" ++ C] := by
  unfold dummyCols
  rw [h]
  rfl

/-- C4 witness: a column with categories b, a, c (present in scrambled
order) yields exactly the indicators for the two non-first categories. -/
theorem C4_witness :
    (dummyCols "col" [Value.vstr "b", Value.vstr "a", Value.vstr "c"]).map
      (fun c => c.1) = ["col" ++ "_" ++ "b", "col" ++ "_" ++ "c"] :=
  C4_reference_category_amended "col" "a" "b" "c"
    [Value.vstr "b", Value.vstr "a", Value.vstr "c"] (by decide)

/-- C4 counterexample: the excluded category is batch-dependent.  For race,
whose alphabetically first category overall is Black, a batch containing only
Hispanic and White drops Hispanic instead, producing only race_White; the
same column with Black present produces race_Hispanic and race_White.  End
to end, the batch CB has a Hispanic respondent but no Black one, and its
race_Hispanic output column is constant 0. -/
theorem C4_counterexample :
    (dummyCols "race" [Value.vstr "Hispanic", Value.vstr "White"]).map
      (fun c => c.1) = ["race_White"] ∧
    (dummyCols "race" [Value.vstr "Black", Value.vstr "Hispanic", Value.vstr "White"]).map
      (fun c => c.1) = ["race_Hispanic", "race_White"] ∧
    getCol Examples.CB "race" =
      some [Value.vstr "White", Value.vstr "Hispanic", Value.vstr "White"] ∧
    (Pipeline.preprocess Examples.CB).toOption.bind
      (fun o => getCol o "race_Hispanic") =
      some [Value.vnum 0, Value.vnum 0, Value.vnum 0] := by decide

/-- C5 (confirmed): for every batch on which preprocess succeeds with numeric
household columns, the output household_size column is the elementwise sum of
household_adults and household_children with missing treated as 0. -/
theorem C5_household_size {t out : Table} {as cs : List Value}
    (ha : getCol t "household_adults" = some as)
    (hc : getCol t "household_children" = some cs)
    (hna : numericCol as = true) (hnc : numericCol cs = true)
    (hlen : as.length = cs.length)
    (hok : Pipeline.preprocess t = .ok out) :
    getCol out "household_size" =
      some (List.zipWith (fun a b => Value.vnum (numOr0 a + numOr0 b)) as cs) := by
  obtain ⟨t2, t4, t5, t6, t7, h2, h4, h5, h6, h7, rfl⟩ := Pipeline.preprocess_ok_inv hok
  obtain ⟨a', c', hs, ha', hc', hadd, ht4⟩ := Pipeline.stage_household_inv h4
  have haa : a' = as := by
    rw [Pipeline.getCol_raw3 h2 _ (by decide) (by decide) (by decide) (by decide)
      (by decide) (by decide), ha] at ha'
    exact (Option.some.inj ha').symm
  have hcc : c' = cs := by
    rw [Pipeline.getCol_raw3 h2 _ (by decide) (by decide) (by decide) (by decide)
      (by decide) (by decide), hc] at hc'
    exact (Option.some.inj hc').symm
  subst haa
  subst hcc
  have hzip : hs = List.zipWith (fun a b => Value.vnum (numOr0 a + numOr0 b)) a' c' := by
    rw [addCols_fill0 hna hnc hlen] at hadd
    exact (Except.ok.inj hadd).symm
  subst ht4
  have e4 : getCol (setCol (Pipeline.stage_ord t2) "household_size" hs)
      "household_size" = some hs := by
    rw [getCol_setCol, if_pos rfl]
  obtain ⟨cols, sbs, _, _, ht5⟩ := Pipeline.stage_sbs_inv h5
  obtain ⟨x, y, db, _, _, _, ht6⟩ := Pipeline.stage_dr_inv h6
  subst ht5
  subst ht6
  have e6 : getCol (dropCols ["doctor_recc_h1n1", "doctor_recc_seasonal"]
      (setCol (setCol (setCol (Pipeline.stage_ord t2) "household_size" hs)
        "safe_behavior_score" sbs) "doctor_recc_both" db)) "household_size" = some hs := by
    rw [getCol_dropCols, if_neg (by decide), getCol_setCol, if_neg (by decide),
      getCol_setCol, if_neg (by decide)]
    exact e4
  have e7 := (Pipeline.stage_onehot_track h7 _ (by decide)).1 _ e6
  rw [← hzip]
  exact Pipeline.getCol_out_of_t7 (by decide) e7
    (by rw [hzip]; exact allNumB_zipNum a' c')

/-- C5 witness: adults [2, missing, 1] and children [1, 0, 2] give
household_size [3, 0, 3]. -/
theorem C5_witness :
    (Pipeline.preprocess Examples.CB).toOption.map
      (fun o => getCol o "household_size") =
      some (some (List.zipWith (fun a b => Value.vnum (numOr0 a + numOr0 b))
        [Value.vnum 2, Value.vmiss, Value.vnum 1]
        [Value.vnum 1, Value.vnum 0, Value.vnum 2])) := by
  rcases hok : Pipeline.preprocess Examples.CB with e | out
  · have hok' : (Pipeline.preprocess Examples.CB).isOk = true := by decide
    rw [hok] at hok'
    simp [Except.isOk, Except.toBool] at hok'
  · have h5 := C5_household_size
      (by decide : getCol Examples.CB "household_adults" =
        some [Value.vnum 2, Value.vmiss, Value.vnum 1])
      (by decide : getCol Examples.CB "household_children" =
        some [Value.vnum 1, Value.vnum 0, Value.vnum 2])
      (by decide) (by decide) (by decide) hok
    simp only [Except.toOption, Option.map]
    rw [h5]

end Vaccine

namespace Vaccine

/-- C6 (confirmed): for every batch with binary-or-missing doctor
recommendation columns on which preprocess succeeds, the output
doctor_recc_both column is their elementwise sum (missing as 0), every value
lies in 0, 1, 2, and neither source column appears in the final matrix. -/
theorem C6_doctor_recc_both {t out : Table} {xs ys : List Value}
    (hx : getCol t "doctor_recc_h1n1" = some xs)
    (hy : getCol t "doctor_recc_seasonal" = some ys)
    (hbx : ∀ v ∈ xs, v = Value.vnum 0 ∨ v = Value.vnum 1 ∨ v = Value.vmiss)
    (hby : ∀ v ∈ ys, v = Value.vnum 0 ∨ v = Value.vnum 1 ∨ v = Value.vmiss)
    (hlen : xs.length = ys.length)
    (hok : Pipeline.preprocess t = .ok out) :
    getCol out "doctor_recc_both" =
      some (List.zipWith (fun a b => Value.vnum (numOr0 a + numOr0 b)) xs ys) ∧
    (∀ v ∈ List.zipWith (fun a b => Value.vnum (numOr0 a + numOr0 b)) xs ys,
      v = Value.vnum 0 ∨ v = Value.vnum 1 ∨ v = Value.vnum 2) ∧
    "doctor_recc_h1n1" ∉ out.map (fun c => c.1) ∧
    "doctor_recc_seasonal" ∉ out.map (fun c => c.1) := by
  obtain ⟨t2, t4, t5, t6, t7, h2, h4, h5, h6, h7, rfl⟩ := Pipeline.preprocess_ok_inv hok
  obtain ⟨x', y', db, hx', hy', hadd, ht6⟩ := Pipeline.stage_dr_inv h6
  have hxx : x' = xs := by
    rw [Pipeline.getCol_raw5 h2 h4 h5 _ (by decide) (by decide) (by decide) (by decide)
      (by decide) (by decide) (by decide) (by decide), hx] at hx'
    exact (Option.some.inj hx').symm
  have hyy : y' = ys := by
    rw [Pipeline.getCol_raw5 h2 h4 h5 _ (by decide) (by decide) (by decide) (by decide)
      (by decide) (by decide) (by decide) (by decide), hy] at hy'
    exact (Option.some.inj hy').symm
  subst hxx
  subst hyy
  have hzip : db = List.zipWith (fun a b => Value.vnum (numOr0 a + numOr0 b)) x' y' := by
    rw [addCols_fill0 (numericCol_of_binary hbx) (numericCol_of_binary hby) hlen] at hadd
    exact (Except.ok.inj hadd).symm
  subst ht6
  have e6 : getCol (dropCols ["doctor_recc_h1n1", "doctor_recc_seasonal"]
      (setCol t5 "doctor_recc_both" db)) "doctor_recc_both" = some db := by
    rw [getCol_dropCols, if_neg (by decide), getCol_setCol, if_pos rfl]
  have e7 := (Pipeline.stage_onehot_track h7 _ (by decide)).1 _ e6
  refine ⟨?_, zip_binary_bounds x' y' hbx hby, ?_, ?_⟩
  · rw [← hzip]
    exact Pipeline.getCol_out_of_t7 (by decide) e7
      (by rw [hzip]; exact allNumB_zipNum x' y')
  · rw [Pipeline.reconcile_names]
    decide
  · rw [Pipeline.reconcile_names]
    decide

/-- C6 witness: recommendations [1, 0, missing] and [1, missing, 0] give
doctor_recc_both [2, 0, 0] on the concrete batch CB. -/
theorem C6_witness :
    (Pipeline.preprocess Examples.CB).toOption.map
      (fun o => getCol o "doctor_recc_both") =
      some (some (List.zipWith (fun a b => Value.vnum (numOr0 a + numOr0 b))
        [Value.vnum 1, Value.vnum 0, Value.vmiss]
        [Value.vnum 1, Value.vmiss, Value.vnum 0])) := by
  rcases hok : Pipeline.preprocess Examples.CB with e | out
  · have hok' : (Pipeline.preprocess Examples.CB).isOk = true := by decide
    rw [hok] at hok'
    simp [Except.isOk, Except.toBool] at hok'
  · have h6 := C6_doctor_recc_both
      (by decide : getCol Examples.CB "doctor_recc_h1n1" =
        some [Value.vnum 1, Value.vnum 0, Value.vmiss])
      (by decide : getCol Examples.CB "doctor_recc_seasonal" =
        some [Value.vnum 1, Value.vmiss, Value.vnum 0])
      (by decide) (by decide) (by decide) hok
    simp only [Except.toOption, Option.map]
    rw [h6.1]

/-- C7 (confirmed): the imputation stage replaces the missing cells of every
numeric column with that column's batch median (computed from this batch
alone, by the pure function batchMedian); concretely, a batch whose encoded
ages are [0, missing, 2] comes out with age_group [0, 1, 2], and the same
surviving rows in a batch with ages [0, missing, 4] come out [0, 2, 4]. -/
theorem C7_batch_median :
    (∀ (u : Table) (c : String) (vs : List Value), getCol u c = some vs →
      numericCol vs = true →
      getCol (Pipeline.stage_impute u) c = some (fillWith vs (batchMedian vs))) ∧
    (Pipeline.preprocess Examples.CB).toOption.bind (fun o => getCol o "age_group") =
      some [Value.vnum 0, Value.vnum 1, Value.vnum 2] ∧
    (Pipeline.preprocess Examples.CB2).toOption.bind (fun o => getCol o "age_group") =
      some [Value.vnum 0, Value.vnum 2, Value.vnum 4] := by
  refine ⟨?_, by decide, by decide⟩
  intro u c vs hg hn
  rw [Pipeline.getCol_stage_impute, hg]
  show some (if numericCol vs then fillMedian vs else vs) = _
  rw [if_pos hn]
  rfl

/-- C7 witness: imputing the single column [0, missing, 2] fills the missing
cell with the batch median 1. -/
theorem C7_witness :
    getCol (Pipeline.stage_impute
      [("age_group", [Value.vnum 0, Value.vmiss, Value.vnum 2])]) "age_group" =
      some [Value.vnum 0, Value.vnum 1, Value.vnum 2] :=
  (C7_batch_median.1 [("age_group", [Value.vnum 0, Value.vmiss, Value.vnum 2])]
    "age_group" [Value.vnum 0, Value.vmiss, Value.vnum 2] rfl (by decide)).trans
    (by decide)

/-- C8 (confirmed): validate_data returns the table unchanged exactly when
every required column is present, and otherwise fails with an error listing
every missing required column. -/
theorem C8_validate_schema (req : List String) (t : Table) :
    (DataPreprocessor.validate_data req t = .ok t ↔ ∀ c ∈ req, hasCol t c = true) ∧
    ((∃ c ∈ req, hasCol t c = false) →
      DataPreprocessor.validate_data req t =
        .error (.valueError (req.filter (fun n => !(hasCol t n))))) := by
  constructor
  · constructor
    · intro h c hc
      unfold DataPreprocessor.validate_data at h
      by_cases he : (req.filter (fun n => !(hasCol t n))).isEmpty
      · have hfil : req.filter (fun n => !(hasCol t n)) = [] := by
          simpa [List.isEmpty_iff] using he
        have := List.filter_eq_nil_iff.mp hfil c hc
        simpa using this
      · rw [if_neg he] at h
        simp at h
    · intro h
      unfold DataPreprocessor.validate_data
      have hfil : req.filter (fun n => !(hasCol t n)) = [] :=
        List.filter_eq_nil_iff.mpr (fun c hc => by simp [h c hc])
      rw [hfil]
      rfl
  · rintro ⟨c, hc, hfalse⟩
    unfold DataPreprocessor.validate_data
    have hcmem : c ∈ req.filter (fun n => !(hasCol t n)) :=
      List.mem_filter.mpr ⟨hc, by simp [hfalse]⟩
    have hne : (req.filter (fun n => !(hasCol t n))).isEmpty = false := by
      cases hfil : req.filter (fun n => !(hasCol t n)) with
      | nil => rw [hfil] at hcmem; simp at hcmem
      | cons a l => rfl
    rw [if_neg (by simp [hne])]

/-- C8 witness: with one required column and an empty table, validation fails
listing that column; with the column present, the table comes back
unchanged. -/
theorem C8_witness :
    DataPreprocessor.validate_data ["respondent_id"] ([] : Table) =
      .error (.valueError ["respondent_id"]) :=
  ((C8_validate_schema ["respondent_id"] []).2
    ⟨"respondent_id", by decide, by decide⟩).trans (by decide)

end Vaccine

namespace Vaccine

/-- C9 (amended): the two preprocessing variants diverge on a batch accepted
by both: on CB, pipeline.preprocess produces a feature table while the
DataPreprocessor chain, run through its last data-transforming stage
(encode_categoricals), produces a different table — it leaves age_group as
text (mode-imputed instead of ordinally encoded), among other differences.
The full chained entry point never returns a table at all (see C10). -/
theorem C9_amended :
    (Pipeline.preprocess Examples.CB).isOk = true ∧
    (DataPreprocessor.stages Examples.CB).isOk = true ∧
    (Pipeline.preprocess Examples.CB).toOption.bind (fun o => getCol o "age_group") =
      some [Value.vnum 0, Value.vnum 1, Value.vnum 2] ∧
    (DataPreprocessor.stages Examples.CB).toOption.bind (fun o => getCol o "age_group") =
      some [Value.vstr "18 - 34 Years", Value.vstr "18 - 34 Years",
        Value.vstr "45 - 54 Years"] ∧
    (Pipeline.preprocess Examples.CB).toOption ≠
      (DataPreprocessor.stages Examples.CB).toOption := by decide

/-- C9 counterexample: as stated, the claim is false — there is no batch on
which both variants produce (different) output feature tables, because
DataPreprocessor.preprocess never returns a table on any input. -/
theorem C9_counterexample :
    ¬ ∃ (b o1 o2 : Table), Pipeline.preprocess b = .ok o1 ∧
      DataPreprocessor.preprocess b = .ok o2 ∧ o1 ≠ o2 := by
  rintro ⟨b, o1, o2, -, h2, -⟩
  exact dp_never_returns b o2 h2

/-- C10 (amended): DataPreprocessor.preprocess never returns a result on any
input; whenever the stages before split_features_labels succeed, it raises
AttributeError for the never-assigned is_training_data attribute (if an
earlier stage fails, that stage's error — e.g. the validation ValueError —
propagates instead). -/
theorem C10_amended :
    (∀ (t out : Table), DataPreprocessor.preprocess t ≠ .ok out) ∧
    (∀ (t t5 : Table), DataPreprocessor.stages t = .ok t5 →
      DataPreprocessor.preprocess t = .error (.attributeError "is_training_data")) := by
  refine ⟨dp_never_returns, ?_⟩
  intro t t5 h
  unfold DataPreprocessor.preprocess
  rw [h]
  rfl

/-- C10 witness: on the concrete batch CB all stages succeed and the chained
entry point raises the AttributeError. -/
theorem C10_witness :
    DataPreprocessor.preprocess Examples.CB =
      .error (.attributeError "is_training_data") :=
  C10_amended.2 Examples.CB ((DataPreprocessor.stages Examples.CB).toOption.getD [])
    (by decide)

/-- C10 counterexample: on a table missing the required columns, preprocess
raises the validation ValueError, not an AttributeError, so the claim's "for
every input table ... raises an AttributeError" is too strong. -/
theorem C10_counterexample :
    DataPreprocessor.preprocess ([] : Table) =
      .error (.valueError DataPreprocessor.required_columns) ∧
    Err.valueError DataPreprocessor.required_columns ≠
      .attributeError "is_training_data" := by decide

end Vaccine
